import Mathlib

/-!
# Option declarations of package `cli` (`option.go`)

A shallow embedding of the seven option kinds of `option.go` and of the four
operations of the `Option` interface (`SetDefaultValue`, `Keywords`, `Apply`,
`Help`), followed by the properties proved about them.

Modelling conventions.

* A Go `string` is a sequence of bytes: `GoString := List UInt8`.  `len(s)` is
  `s.length`, `s[0]` is the first byte, `+` is `++`, `""` is `[]`.
* `map[string]interface{}` is a finite map with string keys; it is embedded
  extensionally as a function `GoString → Option Value` (`none`: key absent).
  The mapping handed to an operation is an allocated map (the dispatch loop
  creates it before seeding defaults); a nil map is outside the model.
* A method that mutates the mapping returns the mapping after the call.
* `int` is taken to be 64 bits wide.  Signed integers are `Int`; conversions
  between widths are written out as two's-complement truncation (`wrap`).
* `strconv.ParseInt` and `strconv.FormatInt` belong to the Go standard
  library; they are embedded here at base 10, following the library's
  algorithm.  The floating-point routines (`strconv.ParseFloat`,
  `strconv.FormatFloat` and the conversions between `float32` and `float64`)
  are parameters, bundled in `FloatLib`.
-/

namespace cli

/-! ## Strings, errors, dynamically typed values -/

/-- A Go string: an immutable sequence of bytes. -/
abbrev GoString := List UInt8

/-- The bytes of an ASCII string literal of the source text. -/
def lit (s : String) : GoString := s.toList.map (fun c => UInt8.ofNat c.toNat)

/-- The two sentinel errors of package strconv that a `NumError` wraps. -/
inductive NumErr
  | ErrSyntax
  | ErrRange
  deriving DecidableEq

/-- The error values that occur: the result of `errors.New(text)`, whose
message is `text`, and `*strconv.NumError` (the function name, the input, the
wrapped sentinel). -/
inductive GoError
  | errorString (text : GoString)
  | NumError (Func : GoString) (Num : GoString) (Err : NumErr)
  deriving DecidableEq

/-- The function `errors.New`. -/
def errors.New (text : GoString) : GoError := GoError.errorString text

/-- An IEEE-754 binary32 value, given by its bit pattern. -/
structure GoFloat32 where
  bits : Fin (2 ^ 32)
  deriving DecidableEq

/-- An IEEE-754 binary64 value, given by its bit pattern. -/
structure GoFloat64 where
  bits : Fin (2 ^ 64)
  deriving DecidableEq

/-- The comparison `f == 0` on `float32`: true exactly for +0 and -0
(all bits below the sign bit are clear). -/
def GoFloat32.eqZero (f : GoFloat32) : Bool := f.bits.val % 2 ^ 31 == 0

/-- The comparison `f == 0` on `float64`: true exactly for +0 and -0. -/
def GoFloat64.eqZero (f : GoFloat64) : Bool := f.bits.val % 2 ^ 63 == 0

/-- The floating-point routines the float kinds call; they belong to the Go
runtime and to package strconv, not to this package. -/
structure FloatLib where
  /-- The function `strconv.ParseFloat(s, bitSize)`. -/
  ParseFloat : GoString → Nat → Except GoError GoFloat64
  /-- The conversion `float32(v)`. -/
  toFloat32 : GoFloat64 → GoFloat32
  /-- The conversion `float64(v)`. -/
  toFloat64 : GoFloat32 → GoFloat64
  /-- The function `strconv.FormatFloat(f, 'f', -1, bitSize)`. -/
  FormatFloat : GoFloat64 → Nat → GoString

/-- A value of type `interface{}` as stored in the result mapping: the
dynamic type together with the value. -/
inductive Value
  | bool (b : Bool)
  | string (s : GoString)
  | int (v : Int)
  | int32 (v : Int)
  | int64 (v : Int)
  | float32 (v : GoFloat32)
  | float64 (v : GoFloat64)
  deriving DecidableEq

/-- The result mapping `map[string]interface{}`. -/
abbrev Mapping := GoString → Option Value

/-- The mapping without keys. -/
def Mapping.empty : Mapping := fun _ => none

/-- The assignment `options[key] = v`. -/
def Mapping.set (options : Mapping) (key : GoString) (v : Value) : Mapping :=
  fun k => if k = key then some v else options k

/-- What a call of `Apply` leaves behind: the mapping after the call and the
two results `(int, error)`; `err = none` is the nil error. -/
structure ApplyResult where
  options : Mapping
  n : Int
  err : Option GoError

/-! ## Machine integers and the integer routines of strconv -/

/-- Two's-complement truncation of an integer to `w` bits. -/
def wrap (w : Nat) (v : Int) : Int := (v + 2 ^ (w - 1)) % 2 ^ w - 2 ^ (w - 1)

/-- The conversion `int32(v)`. -/
def toInt32 (v : Int) : Int := wrap 32 v

/-- The conversion `int64(v)`. -/
def toInt64 (v : Int) : Int := wrap 64 v

/-- The conversion `int(v)`, `int` being 64 bits wide. -/
def toInt (v : Int) : Int := wrap 64 v

/-- The helper `syntaxError(fn, str)` of strconv. -/
def strconv.syntaxError (fn str : GoString) : GoError :=
  GoError.NumError fn str NumErr.ErrSyntax

/-- The helper `rangeError(fn, str)` of strconv. -/
def strconv.rangeError (fn str : GoString) : GoError :=
  GoError.NumError fn str NumErr.ErrRange

/-- The helper `lower(c)` of strconv: `c | ('x' - 'X')`. -/
def strconv.lower (c : UInt8) : Nat := c.toNat ||| 32

/-- The digit value that the `switch` in the loop of `strconv.ParseUint`
assigns to the byte `c` (base 10, so `_` is not skipped); `none` is the
`default` case, a syntax error. -/
def strconv.ParseUint.digit (c : UInt8) : Option Nat :=
  if 48 ≤ c.toNat ∧ c.toNat ≤ 57 then some (c.toNat - 48)
  else if 97 ≤ strconv.lower c ∧ strconv.lower c ≤ 122 then some (strconv.lower c - 97 + 10)
  else none

/-- The digit loop of `strconv.ParseUint` at base 10.  `n` is the `uint64`
accumulator and `(2 ^ 64 - 1) / 10 + 1` the cutoff `maxUint64/10 + 1`; the
loop returns the value and the error, as the library function does. -/
def strconv.ParseUint.loop (s0 : GoString) (maxVal : Nat) :
    Nat → List UInt8 → Nat × Option GoError
  | n, [] => (n, none)
  | n, c :: cs =>
    match strconv.ParseUint.digit c with
    | none => (0, some (strconv.syntaxError (lit "ParseUint") s0))
    | some d =>
      if d ≥ 10 then (0, some (strconv.syntaxError (lit "ParseUint") s0))
      else if n ≥ (2 ^ 64 - 1) / 10 + 1 then
        (maxVal, some (strconv.rangeError (lit "ParseUint") s0))
      else
        let n := n * 10 % 2 ^ 64
        let n1 := (n + d) % 2 ^ 64
        if n1 < n ∨ n1 > maxVal then
          (maxVal, some (strconv.rangeError (lit "ParseUint") s0))
        else strconv.ParseUint.loop s0 maxVal n1 cs

/-- The function `strconv.ParseUint(s, 10, bitSize)`, for `1 ≤ bitSize ≤ 64`. -/
def strconv.ParseUint (s : GoString) (bitSize : Nat) : Nat × Option GoError :=
  if s = [] then (0, some (strconv.syntaxError (lit "ParseUint") s))
  else strconv.ParseUint.loop s (2 ^ bitSize - 1) 0 s

/-- The function `strconv.ParseInt(s, 10, bitSize)`, for `1 ≤ bitSize ≤ 64`:
the value and the error (`none` is nil). -/
def strconv.ParseInt (s : GoString) (bitSize : Nat) : Int × Option GoError :=
  match s with
  | [] => (0, some (strconv.syntaxError (lit "ParseInt") s))
  | c :: rest =>
    let s0 := s
    let neg := c = 45
    let s := if c = 43 then rest else if c = 45 then rest else s
    match strconv.ParseUint s bitSize with
    | (_, some (GoError.NumError _ _ NumErr.ErrSyntax)) =>
      (0, some (GoError.NumError (lit "ParseInt") s0 NumErr.ErrSyntax))
    | (un, _) =>
      let cutoff := 2 ^ (bitSize - 1)
      if ¬ neg ∧ un ≥ cutoff then
        (((cutoff - 1 : Nat) : Int), some (strconv.rangeError (lit "ParseInt") s0))
      else if neg ∧ un > cutoff then
        (-(cutoff : Int), some (strconv.rangeError (lit "ParseInt") s0))
      else
        let n := toInt64 un
        if neg then (toInt64 (-n), none) else (n, none)

/-- The decimal digits of a natural number, most significant first. -/
def strconv.formatBits (u : Nat) : GoString :=
  (Nat.toDigits 10 u).map (fun c => UInt8.ofNat c.toNat)

/-- The function `strconv.FormatInt(i, 10)`: a minus sign for a negative
number, then the decimal digits of the magnitude. -/
def strconv.FormatInt (i : Int) : GoString :=
  if i < 0 then lit "-" ++ strconv.formatBits (-i).toNat
  else strconv.formatBits i.toNat

/-! ## The option kinds -/

/-- The struct `BoolOption`. -/
structure BoolOption where
  Name : GoString
  Short : GoString
  Description : GoString
  Usage : GoString
  ArgUsage : GoString
  deriving DecidableEq

/-- The method `(*BoolOption).SetDefaultValue`: the body is empty. -/
def BoolOption.SetDefaultValue (_option : BoolOption) (options : Mapping) : Mapping :=
  options

/-- The method `(*BoolOption).Keywords`. -/
def BoolOption.Keywords (option : BoolOption) : List GoString :=
  let keywords : List GoString := []
  let keywords := if option.Short ≠ [] then keywords ++ [lit "-" ++ option.Short] else keywords
  let keywords := if option.Name ≠ [] then keywords ++ [lit "--" ++ option.Name] else keywords
  keywords

/-- The method `(*BoolOption).Apply`. -/
def BoolOption.Apply (option : BoolOption) (options : Mapping) (_args : List GoString) :
    ApplyResult :=
  ⟨options.set option.Name (Value.bool true), 0, none⟩

/-- The method `(*BoolOption).Help`. -/
def BoolOption.Help (option : BoolOption) : GoString × GoString :=
  let usage := option.Usage
  let usage :=
    if usage = [] then
      let usage := if option.Short ≠ [] then lit "-" ++ option.Short else usage
      if option.Name ≠ [] then
        let usage := if usage ≠ [] then usage ++ lit "," else usage
        usage ++ (lit "--" ++ option.Name)
      else usage
    else usage
  let description := option.Description
  (usage, description)

/-- The struct `StringOption`. -/
structure StringOption where
  Name : GoString
  Short : GoString
  DefaultValue : GoString
  Description : GoString
  Usage : GoString
  ArgUsage : GoString
  deriving DecidableEq

/-- The method `(*StringOption).SetDefaultValue`. -/
def StringOption.SetDefaultValue (option : StringOption) (options : Mapping) : Mapping :=
  if option.DefaultValue = [] then options
  else options.set option.Name (Value.string option.DefaultValue)

/-- The method `(*StringOption).Keywords`. -/
def StringOption.Keywords (option : StringOption) : List GoString :=
  let keywords : List GoString := []
  let keywords := if option.Short ≠ [] then keywords ++ [lit "-" ++ option.Short] else keywords
  let keywords := if option.Name ≠ [] then keywords ++ [lit "--" ++ option.Name] else keywords
  keywords

/-- The method `(*StringOption).usage`. -/
def StringOption.usage (option : StringOption) : GoString :=
  let usage := option.Usage
  if usage = [] then
    let usage := if option.Short ≠ [] then lit "-" ++ option.Short else usage
    if option.Name ≠ [] then
      let usage := if usage ≠ [] then usage ++ lit "," else usage
      let usage := usage ++ (lit "--" ++ option.Name ++ lit "=")
      if option.ArgUsage ≠ [] then usage ++ option.ArgUsage else usage ++ lit "string"
    else usage
  else usage

/-- The method `(*StringOption).Apply`; `45` is the byte `'-'`. -/
def StringOption.Apply (option : StringOption) (options : Mapping) (args : List GoString) :
    ApplyResult :=
  if args.length < 1 ∨ ((args.getD 0 []).length ≥ 2 ∧ (args.getD 0 []).getD 0 0 = 45) then
    ⟨options, 0, some (errors.New (lit "missing required value: " ++ option.usage))⟩
  else
    let v := args.getD 0 []
    ⟨options.set option.Name (Value.string v), 1, none⟩

/-- The method `(*StringOption).Help`. -/
def StringOption.Help (option : StringOption) : GoString × GoString :=
  let usage := option.usage
  let description := option.Description
  let description :=
    if option.DefaultValue ≠ [] then
      description ++ (lit " (default: " ++ option.DefaultValue ++ lit ")")
    else description
  (usage, description)

/-- The struct `IntOption`. -/
structure IntOption where
  Name : GoString
  Short : GoString
  DefaultValue : Int
  Description : GoString
  Usage : GoString
  ArgUsage : GoString
  deriving DecidableEq

/-- The method `(*IntOption).SetDefaultValue`. -/
def IntOption.SetDefaultValue (option : IntOption) (options : Mapping) : Mapping :=
  if option.DefaultValue = 0 then options
  else options.set option.Name (Value.int option.DefaultValue)

/-- The method `(*IntOption).Keywords`. -/
def IntOption.Keywords (option : IntOption) : List GoString :=
  let keywords : List GoString := []
  let keywords := if option.Short ≠ [] then keywords ++ [lit "-" ++ option.Short] else keywords
  let keywords := if option.Name ≠ [] then keywords ++ [lit "--" ++ option.Name] else keywords
  keywords

/-- The method `(*IntOption).usage`. -/
def IntOption.usage (option : IntOption) : GoString :=
  let usage := option.Usage
  if usage = [] then
    let usage := if option.Short ≠ [] then lit "-" ++ option.Short else usage
    if option.Name ≠ [] then
      let usage := if usage ≠ [] then usage ++ lit "," else usage
      let usage := usage ++ (lit "--" ++ option.Name ++ lit "=")
      if option.ArgUsage ≠ [] then usage ++ option.ArgUsage else usage ++ lit "number"
    else usage
  else usage

/-- The method `(*IntOption).Apply`: `strconv.ParseInt(args[0], 10, 64)`, then
the store of `int(v)`. -/
def IntOption.Apply (option : IntOption) (options : Mapping) (args : List GoString) :
    ApplyResult :=
  if args.length < 1 ∨ ((args.getD 0 []).length ≥ 2 ∧ (args.getD 0 []).getD 0 0 = 45) then
    ⟨options, 0, some (errors.New (lit "missing required value: " ++ option.usage))⟩
  else
    match strconv.ParseInt (args.getD 0 []) 64 with
    | (_, some err) => ⟨options, 0, some err⟩
    | (v, none) => ⟨options.set option.Name (Value.int (toInt v)), 1, none⟩

/-- The method `(*IntOption).Help`. -/
def IntOption.Help (option : IntOption) : GoString × GoString :=
  let usage := option.usage
  let description := option.Description
  let description :=
    if option.DefaultValue ≠ 0 then
      description ++ (lit " (default: " ++ strconv.FormatInt (toInt64 option.DefaultValue) ++ lit ")")
    else description
  (usage, description)

/-- The struct `Int32Option`. -/
structure Int32Option where
  Name : GoString
  Short : GoString
  DefaultValue : Int
  Description : GoString
  Usage : GoString
  ArgUsage : GoString
  deriving DecidableEq

/-- The method `(*Int32Option).SetDefaultValue`. -/
def Int32Option.SetDefaultValue (option : Int32Option) (options : Mapping) : Mapping :=
  if option.DefaultValue = 0 then options
  else options.set option.Name (Value.int32 option.DefaultValue)

/-- The method `(*Int32Option).Keywords`. -/
def Int32Option.Keywords (option : Int32Option) : List GoString :=
  let keywords : List GoString := []
  let keywords := if option.Short ≠ [] then keywords ++ [lit "-" ++ option.Short] else keywords
  let keywords := if option.Name ≠ [] then keywords ++ [lit "--" ++ option.Name] else keywords
  keywords

/-- The method `(*Int32Option).usage`. -/
def Int32Option.usage (option : Int32Option) : GoString :=
  let usage := option.Usage
  if usage = [] then
    let usage := if option.Short ≠ [] then lit "-" ++ option.Short else usage
    if option.Name ≠ [] then
      let usage := if usage ≠ [] then usage ++ lit "," else usage
      let usage := usage ++ (lit "--" ++ option.Name ++ lit "=")
      if option.ArgUsage ≠ [] then usage ++ option.ArgUsage else usage ++ lit "number"
    else usage
  else usage

/-- The method `(*Int32Option).Apply`: `strconv.ParseInt(args[0], 10, 32)`, then
the store of `int32(v)`. -/
def Int32Option.Apply (option : Int32Option) (options : Mapping) (args : List GoString) :
    ApplyResult :=
  if args.length < 1 ∨ ((args.getD 0 []).length ≥ 2 ∧ (args.getD 0 []).getD 0 0 = 45) then
    ⟨options, 0, some (errors.New (lit "missing required value: " ++ option.usage))⟩
  else
    match strconv.ParseInt (args.getD 0 []) 32 with
    | (_, some err) => ⟨options, 0, some err⟩
    | (v, none) => ⟨options.set option.Name (Value.int32 (toInt32 v)), 1, none⟩

/-- The method `(*Int32Option).Help`. -/
def Int32Option.Help (option : Int32Option) : GoString × GoString :=
  let usage := option.usage
  let description := option.Description
  let description :=
    if option.DefaultValue ≠ 0 then
      description ++ (lit " (default: " ++ strconv.FormatInt (toInt64 option.DefaultValue) ++ lit ")")
    else description
  (usage, description)

/-- The struct `Int64Option`. -/
structure Int64Option where
  Name : GoString
  Short : GoString
  DefaultValue : Int
  Description : GoString
  Usage : GoString
  ArgUsage : GoString
  deriving DecidableEq

/-- The method `(*Int64Option).SetDefaultValue`. -/
def Int64Option.SetDefaultValue (option : Int64Option) (options : Mapping) : Mapping :=
  if option.DefaultValue = 0 then options
  else options.set option.Name (Value.int64 option.DefaultValue)

/-- The method `(*Int64Option).Keywords`. -/
def Int64Option.Keywords (option : Int64Option) : List GoString :=
  let keywords : List GoString := []
  let keywords := if option.Short ≠ [] then keywords ++ [lit "-" ++ option.Short] else keywords
  let keywords := if option.Name ≠ [] then keywords ++ [lit "--" ++ option.Name] else keywords
  keywords

/-- The method `(*Int64Option).usage`. -/
def Int64Option.usage (option : Int64Option) : GoString :=
  let usage := option.Usage
  if usage = [] then
    let usage := if option.Short ≠ [] then lit "-" ++ option.Short else usage
    if option.Name ≠ [] then
      let usage := if usage ≠ [] then usage ++ lit "," else usage
      let usage := usage ++ (lit "--" ++ option.Name ++ lit "=")
      if option.ArgUsage ≠ [] then usage ++ option.ArgUsage else usage ++ lit "number"
    else usage
  else usage

/-- The method `(*Int64Option).Apply`: `strconv.ParseInt(args[0], 10, 64)`, then
the store of `v`. -/
def Int64Option.Apply (option : Int64Option) (options : Mapping) (args : List GoString) :
    ApplyResult :=
  if args.length < 1 ∨ ((args.getD 0 []).length ≥ 2 ∧ (args.getD 0 []).getD 0 0 = 45) then
    ⟨options, 0, some (errors.New (lit "missing required value: " ++ option.usage))⟩
  else
    match strconv.ParseInt (args.getD 0 []) 64 with
    | (_, some err) => ⟨options, 0, some err⟩
    | (v, none) => ⟨options.set option.Name (Value.int64 (v)), 1, none⟩

/-- The method `(*Int64Option).Help`. -/
def Int64Option.Help (option : Int64Option) : GoString × GoString :=
  let usage := option.usage
  let description := option.Description
  let description :=
    if option.DefaultValue ≠ 0 then
      description ++ (lit " (default: " ++ strconv.FormatInt (option.DefaultValue) ++ lit ")")
    else description
  (usage, description)

/-- The struct `Float32Option`. -/
structure Float32Option where
  Name : GoString
  Short : GoString
  DefaultValue : GoFloat32
  Description : GoString
  Usage : GoString
  ArgUsage : GoString
  deriving DecidableEq

/-- The method `(*Float32Option).SetDefaultValue`. -/
def Float32Option.SetDefaultValue (option : Float32Option) (options : Mapping) : Mapping :=
  if option.DefaultValue.eqZero then options
  else options.set option.Name (Value.float32 option.DefaultValue)

/-- The method `(*Float32Option).Keywords`. -/
def Float32Option.Keywords (option : Float32Option) : List GoString :=
  let keywords : List GoString := []
  let keywords := if option.Short ≠ [] then keywords ++ [lit "-" ++ option.Short] else keywords
  let keywords := if option.Name ≠ [] then keywords ++ [lit "--" ++ option.Name] else keywords
  keywords

/-- The method `(*Float32Option).usage`. -/
def Float32Option.usage (option : Float32Option) : GoString :=
  let usage := option.Usage
  if usage = [] then
    let usage := if option.Short ≠ [] then lit "-" ++ option.Short else usage
    if option.Name ≠ [] then
      let usage := if usage ≠ [] then usage ++ lit "," else usage
      let usage := usage ++ (lit "--" ++ option.Name ++ lit "=")
      if option.ArgUsage ≠ [] then usage ++ option.ArgUsage else usage ++ lit "number"
    else usage
  else usage

/-- The method `(*Float32Option).Apply`: `strconv.ParseFloat(args[0], 32)`, then
the store of `float32(v)`. -/
def Float32Option.Apply (L : FloatLib) (option : Float32Option) (options : Mapping)
    (args : List GoString) : ApplyResult :=
  if args.length < 1 ∨ ((args.getD 0 []).length ≥ 2 ∧ (args.getD 0 []).getD 0 0 = 45) then
    ⟨options, 0, some (errors.New (lit "missing required value: " ++ option.usage))⟩
  else
    match L.ParseFloat (args.getD 0 []) 32 with
    | Except.error err => ⟨options, 0, some err⟩
    | Except.ok v => ⟨options.set option.Name (Value.float32 (L.toFloat32 v)), 1, none⟩

/-- The method `(*Float32Option).Help`. -/
def Float32Option.Help (L : FloatLib) (option : Float32Option) : GoString × GoString :=
  let usage := option.usage
  let description := option.Description
  let description :=
    if ¬ option.DefaultValue.eqZero then
      description ++ (lit " (default: " ++ L.FormatFloat (L.toFloat64 option.DefaultValue) 32 ++ lit ")")
    else description
  (usage, description)

/-- The struct `Float64Option`. -/
structure Float64Option where
  Name : GoString
  Short : GoString
  DefaultValue : GoFloat64
  Description : GoString
  Usage : GoString
  ArgUsage : GoString
  deriving DecidableEq

/-- The method `(*Float64Option).SetDefaultValue`. -/
def Float64Option.SetDefaultValue (option : Float64Option) (options : Mapping) : Mapping :=
  if option.DefaultValue.eqZero then options
  else options.set option.Name (Value.float64 option.DefaultValue)

/-- The method `(*Float64Option).Keywords`. -/
def Float64Option.Keywords (option : Float64Option) : List GoString :=
  let keywords : List GoString := []
  let keywords := if option.Short ≠ [] then keywords ++ [lit "-" ++ option.Short] else keywords
  let keywords := if option.Name ≠ [] then keywords ++ [lit "--" ++ option.Name] else keywords
  keywords

/-- The method `(*Float64Option).usage`. -/
def Float64Option.usage (option : Float64Option) : GoString :=
  let usage := option.Usage
  if usage = [] then
    let usage := if option.Short ≠ [] then lit "-" ++ option.Short else usage
    if option.Name ≠ [] then
      let usage := if usage ≠ [] then usage ++ lit "," else usage
      let usage := usage ++ (lit "--" ++ option.Name ++ lit "=")
      if option.ArgUsage ≠ [] then usage ++ option.ArgUsage else usage ++ lit "number"
    else usage
  else usage

/-- The method `(*Float64Option).Apply`: `strconv.ParseFloat(args[0], 64)`, then
the store of `v`. -/
def Float64Option.Apply (L : FloatLib) (option : Float64Option) (options : Mapping)
    (args : List GoString) : ApplyResult :=
  if args.length < 1 ∨ ((args.getD 0 []).length ≥ 2 ∧ (args.getD 0 []).getD 0 0 = 45) then
    ⟨options, 0, some (errors.New (lit "missing required value: " ++ option.usage))⟩
  else
    match L.ParseFloat (args.getD 0 []) 64 with
    | Except.error err => ⟨options, 0, some err⟩
    | Except.ok v => ⟨options.set option.Name (Value.float64 (v)), 1, none⟩

/-- The method `(*Float64Option).Help`. -/
def Float64Option.Help (L : FloatLib) (option : Float64Option) : GoString × GoString :=
  let usage := option.usage
  let description := option.Description
  let description :=
    if ¬ option.DefaultValue.eqZero then
      description ++ (lit " (default: " ++ L.FormatFloat (option.DefaultValue) 64 ++ lit ")")
    else description
  (usage, description)

/-! ## The interface `Option` -/

/-- A value of the interface type `Option`: one of the seven kinds.  The
functions below are the dynamic dispatch of its four methods and the fields
the seven structs share. -/
inductive AnyOption
  | Bool (o : BoolOption)
  | String (o : StringOption)
  | Int (o : IntOption)
  | Int32 (o : Int32Option)
  | Int64 (o : Int64Option)
  | Float32 (o : Float32Option)
  | Float64 (o : Float64Option)
  deriving DecidableEq

/-- The call `option.SetDefaultValue(options)` on an interface value. -/
def AnyOption.SetDefaultValue : AnyOption → Mapping → Mapping
  | AnyOption.Bool o => o.SetDefaultValue
  | AnyOption.String o => o.SetDefaultValue
  | AnyOption.Int o => o.SetDefaultValue
  | AnyOption.Int32 o => o.SetDefaultValue
  | AnyOption.Int64 o => o.SetDefaultValue
  | AnyOption.Float32 o => o.SetDefaultValue
  | AnyOption.Float64 o => o.SetDefaultValue

/-- The call `option.Keywords()` on an interface value. -/
def AnyOption.Keywords : AnyOption → List GoString
  | AnyOption.Bool o => o.Keywords
  | AnyOption.String o => o.Keywords
  | AnyOption.Int o => o.Keywords
  | AnyOption.Int32 o => o.Keywords
  | AnyOption.Int64 o => o.Keywords
  | AnyOption.Float32 o => o.Keywords
  | AnyOption.Float64 o => o.Keywords

/-- The call `option.Apply(options, args...)` on an interface value. -/
def AnyOption.Apply (L : FloatLib) : AnyOption → Mapping → List GoString → ApplyResult
  | AnyOption.Bool o => o.Apply
  | AnyOption.String o => o.Apply
  | AnyOption.Int o => o.Apply
  | AnyOption.Int32 o => o.Apply
  | AnyOption.Int64 o => o.Apply
  | AnyOption.Float32 o => o.Apply L
  | AnyOption.Float64 o => o.Apply L

/-- The call `option.Help()` on an interface value. -/
def AnyOption.Help (L : FloatLib) : AnyOption → GoString × GoString
  | AnyOption.Bool o => o.Help
  | AnyOption.String o => o.Help
  | AnyOption.Int o => o.Help
  | AnyOption.Int32 o => o.Help
  | AnyOption.Int64 o => o.Help
  | AnyOption.Float32 o => o.Help L
  | AnyOption.Float64 o => o.Help L

/-- The field `Name` of the declaration behind an interface value. -/
def AnyOption.Name : AnyOption → GoString
  | AnyOption.Bool o => o.Name
  | AnyOption.String o => o.Name
  | AnyOption.Int o => o.Name
  | AnyOption.Int32 o => o.Name
  | AnyOption.Int64 o => o.Name
  | AnyOption.Float32 o => o.Name
  | AnyOption.Float64 o => o.Name

/-- The field `Short` of the declaration behind an interface value. -/
def AnyOption.Short : AnyOption → GoString
  | AnyOption.Bool o => o.Short
  | AnyOption.String o => o.Short
  | AnyOption.Int o => o.Short
  | AnyOption.Int32 o => o.Short
  | AnyOption.Int64 o => o.Short
  | AnyOption.Float32 o => o.Short
  | AnyOption.Float64 o => o.Short

/-- The field `Description` of the declaration behind an interface value. -/
def AnyOption.Description : AnyOption → GoString
  | AnyOption.Bool o => o.Description
  | AnyOption.String o => o.Description
  | AnyOption.Int o => o.Description
  | AnyOption.Int32 o => o.Description
  | AnyOption.Int64 o => o.Description
  | AnyOption.Float32 o => o.Description
  | AnyOption.Float64 o => o.Description

/-- The field `Usage` of the declaration behind an interface value. -/
def AnyOption.Usage : AnyOption → GoString
  | AnyOption.Bool o => o.Usage
  | AnyOption.String o => o.Usage
  | AnyOption.Int o => o.Usage
  | AnyOption.Int32 o => o.Usage
  | AnyOption.Int64 o => o.Usage
  | AnyOption.Float32 o => o.Usage
  | AnyOption.Float64 o => o.Usage

/-- The field `ArgUsage` of the declaration behind an interface value. -/
def AnyOption.ArgUsage : AnyOption → GoString
  | AnyOption.Bool o => o.ArgUsage
  | AnyOption.String o => o.ArgUsage
  | AnyOption.Int o => o.ArgUsage
  | AnyOption.Int32 o => o.ArgUsage
  | AnyOption.Int64 o => o.ArgUsage
  | AnyOption.Float32 o => o.ArgUsage
  | AnyOption.Float64 o => o.ArgUsage

/-! ## Vocabulary of the specification -/

/-- A token that looks like another option, in the specification's words: its
length is at least 2 and its first character is `-` (byte 45). -/
def optionShaped (s : GoString) : Prop := s.length ≥ 2 ∧ s.head? = some 45

instance optionShaped.decidable (s : GoString) : Decidable (optionShaped s) := by
  unfold optionShaped; infer_instance

/-- The presence and shape precondition on the remaining arguments: there is a
first argument and it is not option-shaped. -/
def passesShape : List GoString → Prop
  | [] => False
  | a :: _ => ¬ optionShaped a

instance passesShape.decidable (args : List GoString) : Decidable (passesShape args) := by
  cases args <;> unfold passesShape <;> infer_instance

/-- The MissingValue error carrying a usage string: `errors.New` of
`"missing required value: "` followed by the usage. -/
def missingValue (usage : GoString) : GoError :=
  errors.New (lit "missing required value: " ++ usage)

/-- The usage string as the specification words it, `word` being the kind's
default placeholder: the `Usage` override verbatim when it is set; otherwise,
with `P` the `ArgUsage` override or else `word`, the short form comma-joined
with the long form suffixed by `=P`, the long form suffixed by `=P` alone, the
short form alone (no placeholder), or nothing. -/
def usageSpec (word Short Name Usage ArgUsage : GoString) : GoString :=
  if Usage ≠ [] then Usage
  else
    let P := if ArgUsage ≠ [] then ArgUsage else word
    if Short ≠ [] ∧ Name ≠ [] then lit "-" ++ Short ++ lit ",--" ++ Name ++ lit "=" ++ P
    else if Name ≠ [] then lit "--" ++ Name ++ lit "=" ++ P
    else if Short ≠ [] then lit "-" ++ Short
    else []

/-- An integer that a signed two's-complement type of `w` bits holds. -/
def fitsWidth (w : Nat) (v : Int) : Prop := -(2 : Int) ^ (w - 1) ≤ v ∧ v ≤ 2 ^ (w - 1) - 1

instance fitsWidth.decidable (w : Nat) (v : Int) : Decidable (fitsWidth w v) := by
  unfold fitsWidth; infer_instance

/-- A decimal digit: one of the bytes `0` to `9`. -/
def isDigit (c : UInt8) : Prop := 48 ≤ c.toNat ∧ c.toNat ≤ 57

instance isDigit.decidable (c : UInt8) : Decidable (isDigit c) := by
  unfold isDigit; infer_instance

/-- The number that a sequence of decimal digits denotes when it continues the
digits of `n`. -/
def decValue (n : Nat) (ds : List UInt8) : Nat :=
  ds.foldl (fun acc c => acc * 10 + (c.toNat - 48)) n

/-- A valid base-10 signed integer literal: an optional sign (`+`, byte 43, or
`-`, byte 45) followed by one or more decimal digits. -/
def isIntLiteral : GoString → Prop
  | [] => False
  | c :: rest =>
    if c = 43 ∨ c = 45 then rest ≠ [] ∧ ∀ d ∈ rest, isDigit d
    else ∀ d ∈ c :: rest, isDigit d

instance isIntLiteral.decidable (s : GoString) : Decidable (isIntLiteral s) := by
  cases s <;> unfold isIntLiteral <;> infer_instance

/-- The integer that a base-10 signed integer literal denotes. -/
def literalValue : GoString → Int
  | [] => 0
  | c :: rest =>
    if c = 45 then -((decValue 0 rest : Nat) : Int)
    else if c = 43 then ((decValue 0 rest : Nat) : Int)
    else ((decValue 0 (c :: rest) : Nat) : Int)

/-- The default that a declaration seeds, in the specification's words: the
`DefaultValue` of a value-bearing option when it is non-zero (non-empty for
String, not comparing equal to 0 for the numeric kinds), as the dynamically
typed value of the kind; `none` when the default is zero or empty and for
every Bool option. -/
def AnyOption.nonZeroDefault : AnyOption → Option Value
  | AnyOption.Bool _ => none
  | AnyOption.String o =>
    if o.DefaultValue ≠ [] then some (Value.string o.DefaultValue) else none
  | AnyOption.Int o => if o.DefaultValue ≠ 0 then some (Value.int o.DefaultValue) else none
  | AnyOption.Int32 o => if o.DefaultValue ≠ 0 then some (Value.int32 o.DefaultValue) else none
  | AnyOption.Int64 o => if o.DefaultValue ≠ 0 then some (Value.int64 o.DefaultValue) else none
  | AnyOption.Float32 o =>
    if o.DefaultValue.eqZero = false then some (Value.float32 o.DefaultValue) else none
  | AnyOption.Float64 o =>
    if o.DefaultValue.eqZero = false then some (Value.float64 o.DefaultValue) else none

/-- Default seeding: `SetDefaultValue` of each option of the list is called
once, in list order, on the mapping `m`. -/
def seedDefaults (opts : List AnyOption) (m : Mapping) : Mapping :=
  opts.foldl (fun acc o => o.SetDefaultValue acc) m

/-! ## Auxiliary facts -/

theorem lit_dash : lit "-" = [45] := by decide

theorem wrap_of_fits64 (v : Int) (h : fitsWidth 64 v) : wrap 64 v = v := by
  unfold fitsWidth at h
  unfold wrap
  norm_num at h ⊢
  omega

theorem fits64_of_fits32 (v : Int) (h : fitsWidth 32 v) : fitsWidth 64 v := by
  unfold fitsWidth at h ⊢
  norm_num at h ⊢
  omega

theorem wrap_of_fits32 (v : Int) (h : fitsWidth 32 v) : wrap 32 v = v := by
  unfold fitsWidth at h
  unfold wrap
  norm_num at h ⊢
  omega

/-- The guard at the head of every value-bearing `Apply` holds exactly when
the shape precondition fails. -/
theorem guard_iff (args : List GoString) :
    (args.length < 1 ∨ ((args.getD 0 []).length ≥ 2 ∧ (args.getD 0 []).getD 0 0 = 45)) ↔
      ¬ passesShape args := by
  cases args with
  | nil => simp [passesShape]
  | cons a rest =>
    cases a with
    | nil => simp [passesShape, optionShaped]
    | cons c cs => simp [passesShape, optionShaped]

/-- All seven `Keywords` methods compute the same list from `Short` and
`Name`. -/
theorem Keywords_eq (o : AnyOption) :
    o.Keywords =
      (if o.Short ≠ [] then [lit "-" ++ o.Short] else []) ++
        (if o.Name ≠ [] then [lit "--" ++ o.Name] else []) := by
  cases o <;>
    simp only [AnyOption.Keywords, AnyOption.Short, AnyOption.Name, BoolOption.Keywords,
      StringOption.Keywords, IntOption.Keywords, Int32Option.Keywords, Int64Option.Keywords,
      Float32Option.Keywords, Float64Option.Keywords] <;>
    split_ifs <;> simp

/-! ## Keywords -/

/-- Claim C1: for every option kind and every declaration, `Keywords()` is
`["-"+Short, "--"+Name]` when both fields are non-empty, `["-"+Short]` when
only `Short` is, `["--"+Name]` when only `Name` is, and empty when both are
empty; two declarations (of any kinds) that agree on `Short` and `Name` have
the same keywords. -/
theorem Keywords_cases (o : AnyOption) :
    (o.Short ≠ [] → o.Name ≠ [] → o.Keywords = [lit "-" ++ o.Short, lit "--" ++ o.Name]) ∧
    (o.Short ≠ [] → o.Name = [] → o.Keywords = [lit "-" ++ o.Short]) ∧
    (o.Short = [] → o.Name ≠ [] → o.Keywords = [lit "--" ++ o.Name]) ∧
    (o.Short = [] → o.Name = [] → o.Keywords = []) ∧
    (∀ o2 : AnyOption, o2.Short = o.Short → o2.Name = o.Name → o2.Keywords = o.Keywords) := by
  refine ⟨?_, ?_, ?_, ?_, ?_⟩
  · intro hs hn; rw [Keywords_eq]; simp [hs, hn]
  · intro hs hn; rw [Keywords_eq]; simp [hs, hn]
  · intro hs hn; rw [Keywords_eq]; simp [hs, hn]
  · intro hs hn; rw [Keywords_eq]; simp [hs, hn]
  · intro o2 hs hn; rw [Keywords_eq, Keywords_eq, hs, hn]

/-- The declaration `IntOption{Name:"port", Short:"p"}` has the keywords
`-p`, `--port`; so has a Bool option with the same two fields. -/
theorem Keywords_cases_witness :
    (AnyOption.Int ⟨lit "port", lit "p", 8080, [], [], []⟩).Keywords = [lit "-p", lit "--port"] ∧
    (AnyOption.Bool ⟨lit "port", lit "p", lit "d", lit "u", lit "a"⟩).Keywords =
      (AnyOption.Int ⟨lit "port", lit "p", 8080, [], [], []⟩).Keywords :=
  ⟨(Keywords_cases (AnyOption.Int ⟨lit "port", lit "p", 8080, [], [], []⟩)).1
      (by decide) (by decide),
    (Keywords_cases (AnyOption.Int ⟨lit "port", lit "p", 8080, [], [], []⟩)).2.2.2.2
      (AnyOption.Bool ⟨lit "port", lit "p", lit "d", lit "u", lit "a"⟩) rfl rfl⟩

/-! ## SetDefaultValue -/

/-- Claim C2: for every value-bearing kind and every mapping `m`,
`SetDefaultValue(m)` is `m` with `m[Name] = DefaultValue` when the default is
non-zero (non-empty string; integer different from 0; float that does not
compare equal to 0) and is `m` itself otherwise; for a Bool option it is
always `m` itself. -/
theorem SetDefaultValue_writes_iff_nonzero (m : Mapping) :
    (∀ o : StringOption,
      (o.DefaultValue ≠ [] → o.SetDefaultValue m = m.set o.Name (Value.string o.DefaultValue)) ∧
      (o.DefaultValue = [] → o.SetDefaultValue m = m)) ∧
    (∀ o : IntOption,
      (o.DefaultValue ≠ 0 → o.SetDefaultValue m = m.set o.Name (Value.int o.DefaultValue)) ∧
      (o.DefaultValue = 0 → o.SetDefaultValue m = m)) ∧
    (∀ o : Int32Option,
      (o.DefaultValue ≠ 0 → o.SetDefaultValue m = m.set o.Name (Value.int32 o.DefaultValue)) ∧
      (o.DefaultValue = 0 → o.SetDefaultValue m = m)) ∧
    (∀ o : Int64Option,
      (o.DefaultValue ≠ 0 → o.SetDefaultValue m = m.set o.Name (Value.int64 o.DefaultValue)) ∧
      (o.DefaultValue = 0 → o.SetDefaultValue m = m)) ∧
    (∀ o : Float32Option,
      (o.DefaultValue.eqZero = false →
        o.SetDefaultValue m = m.set o.Name (Value.float32 o.DefaultValue)) ∧
      (o.DefaultValue.eqZero = true → o.SetDefaultValue m = m)) ∧
    (∀ o : Float64Option,
      (o.DefaultValue.eqZero = false →
        o.SetDefaultValue m = m.set o.Name (Value.float64 o.DefaultValue)) ∧
      (o.DefaultValue.eqZero = true → o.SetDefaultValue m = m)) ∧
    (∀ o : BoolOption, o.SetDefaultValue m = m) := by
  refine ⟨?_, ?_, ?_, ?_, ?_, ?_, ?_⟩
  · intro o; constructor <;> intro h <;> simp [StringOption.SetDefaultValue, h]
  · intro o; constructor <;> intro h <;> simp [IntOption.SetDefaultValue, h]
  · intro o; constructor <;> intro h <;> simp [Int32Option.SetDefaultValue, h]
  · intro o; constructor <;> intro h <;> simp [Int64Option.SetDefaultValue, h]
  · intro o; constructor <;> intro h <;> simp [Float32Option.SetDefaultValue, h]
  · intro o; constructor <;> intro h <;> simp [Float64Option.SetDefaultValue, h]
  · intro o; rfl

/-- The declaration `IntOption{Name:"port", Short:"p", DefaultValue:8080}`
seeds the empty mapping with `port = 8080`. -/
theorem SetDefaultValue_writes_iff_nonzero_witness :
    IntOption.SetDefaultValue ⟨lit "port", lit "p", 8080, [], [], []⟩ Mapping.empty =
      Mapping.empty.set (lit "port") (Value.int 8080) :=
  ((SetDefaultValue_writes_iff_nonzero Mapping.empty).2.1
    ⟨lit "port", lit "p", 8080, [], [], []⟩).1 (by decide)

/-! ## Apply: presence and shape of the value -/

/-- Claim C3: for every String option, mapping `m` and argument list `args`,
`Apply(m, args...)` returns no error if and only if `args` is non-empty and
`args[0]` is not option-shaped; in that case it returns 1 and the mapping is
`m` with `m[Name] = args[0]`.  The token `--other` is rejected with the
MissingValue error, the one-character token `-` is stored as it is. -/
theorem StringOption_Apply_spec (o : StringOption) (m : Mapping) (args : List GoString) :
    ((o.Apply m args).err = none ↔ passesShape args) ∧
    (∀ a rest, args = a :: rest → ¬ optionShaped a →
      o.Apply m args = ⟨m.set o.Name (Value.string a), 1, none⟩ ∧
      (o.Apply m args).options o.Name = some (Value.string a)) ∧
    (∀ rest, (o.Apply m (lit "--other" :: rest)).err = some (missingValue o.Help.1) ∧
      (o.Apply m (lit "--other" :: rest)).n = 0) ∧
    (∀ rest, o.Apply m (lit "-" :: rest) = ⟨m.set o.Name (Value.string (lit "-")), 1, none⟩) := by
  refine ⟨?_, ?_, ?_, ?_⟩
  · unfold StringOption.Apply
    rw [if_congr (guard_iff args) rfl rfl]
    by_cases h : passesShape args <;> simp [h]
  · intro a rest hargs ha
    have hp : passesShape args := by rw [hargs]; exact ha
    subst hargs
    unfold StringOption.Apply
    rw [if_congr (guard_iff _) rfl rfl]
    simp [hp, Mapping.set]
  · intro rest
    have hp : ¬ passesShape (lit "--other" :: rest) := by
      simp only [passesShape, not_not]; decide
    unfold StringOption.Apply
    rw [if_congr (guard_iff _) rfl rfl]
    simp [hp, missingValue, StringOption.Help]
  · intro rest
    have hp : passesShape (lit "-" :: rest) := by
      simp only [passesShape]; decide
    unfold StringOption.Apply
    rw [if_congr (guard_iff _) rfl rfl]
    simp [hp]

/-- The String option `name` applied to `["alice", "--x"]` stores `alice`
and consumes one argument. -/
theorem StringOption_Apply_spec_witness :
    StringOption.Apply ⟨lit "name", [], [], [], [], []⟩ Mapping.empty [lit "alice", lit "--x"] =
      ⟨Mapping.empty.set (lit "name") (Value.string (lit "alice")), 1, none⟩ ∧
    (StringOption.Apply ⟨lit "name", [], [], [], [], []⟩ Mapping.empty
      [lit "alice", lit "--x"]).options (lit "name") = some (Value.string (lit "alice")) :=
  (StringOption_Apply_spec ⟨lit "name", [], [], [], [], []⟩ Mapping.empty
    [lit "alice", lit "--x"]).2.1 (lit "alice") [lit "--x"] rfl (by decide)

/-! ## Apply: the two branches of the guard -/

theorem if_neg_guard {α : Type} {args : List GoString} (h : ¬ passesShape args) (x y : α) :
    (if args.length < 1 ∨ ((args.getD 0 []).length ≥ 2 ∧ (args.getD 0 []).getD 0 0 = 45)
      then x else y) = x :=
  if_pos ((guard_iff args).mpr h)

theorem if_pos_guard {α : Type} {args : List GoString} (h : passesShape args) (x y : α) :
    (if args.length < 1 ∨ ((args.getD 0 []).length ≥ 2 ∧ (args.getD 0 []).getD 0 0 = 45)
      then x else y) = y :=
  if_neg (fun hg => (guard_iff args).mp hg h)

theorem not_passesShape_iff (args : List GoString) :
    ¬ passesShape args ↔ (args = [] ∨ ∃ a rest, args = a :: rest ∧ optionShaped a) := by
  cases args with
  | nil => simp [passesShape]
  | cons a rest => simp [passesShape]

theorem StringOption_Apply_rejected (o : StringOption) (m : Mapping) (args : List GoString)
    (h : ¬ passesShape args) : o.Apply m args = ⟨m, 0, some (missingValue o.usage)⟩ := by
  unfold StringOption.Apply
  rw [if_neg_guard h]
  rfl

theorem IntOption_Apply_rejected (o : IntOption) (m : Mapping) (args : List GoString)
    (h : ¬ passesShape args) : o.Apply m args = ⟨m, 0, some (missingValue o.usage)⟩ := by
  unfold IntOption.Apply
  rw [if_neg_guard h]
  rfl

theorem Int32Option_Apply_rejected (o : Int32Option) (m : Mapping) (args : List GoString)
    (h : ¬ passesShape args) : o.Apply m args = ⟨m, 0, some (missingValue o.usage)⟩ := by
  unfold Int32Option.Apply
  rw [if_neg_guard h]
  rfl

theorem Int64Option_Apply_rejected (o : Int64Option) (m : Mapping) (args : List GoString)
    (h : ¬ passesShape args) : o.Apply m args = ⟨m, 0, some (missingValue o.usage)⟩ := by
  unfold Int64Option.Apply
  rw [if_neg_guard h]
  rfl

theorem Float32Option_Apply_rejected (L : FloatLib) (o : Float32Option) (m : Mapping) (args : List GoString)
    (h : ¬ passesShape args) : o.Apply L m args = ⟨m, 0, some (missingValue o.usage)⟩ := by
  unfold Float32Option.Apply
  rw [if_neg_guard h]
  rfl

theorem Float64Option_Apply_rejected (L : FloatLib) (o : Float64Option) (m : Mapping) (args : List GoString)
    (h : ¬ passesShape args) : o.Apply L m args = ⟨m, 0, some (missingValue o.usage)⟩ := by
  unfold Float64Option.Apply
  rw [if_neg_guard h]
  rfl

theorem IntOption_Apply_parse_error (o : IntOption) (m : Mapping) (a : GoString)
    (rest : List GoString) (h : ¬ optionShaped a) (v : Int) (e : GoError)
    (hp : strconv.ParseInt a 64 = (v, some e)) :
    o.Apply m (a :: rest) = ⟨m, 0, some e⟩ := by
  unfold IntOption.Apply
  rw [if_pos_guard (show passesShape (a :: rest) from h)]
  simp only [List.getD_cons_zero, hp]

theorem IntOption_Apply_parsed (o : IntOption) (m : Mapping) (a : GoString)
    (rest : List GoString) (h : ¬ optionShaped a) (v : Int)
    (hp : strconv.ParseInt a 64 = (v, none)) :
    o.Apply m (a :: rest) = ⟨m.set o.Name (Value.int (toInt v)), 1, none⟩ := by
  unfold IntOption.Apply
  rw [if_pos_guard (show passesShape (a :: rest) from h)]
  simp only [List.getD_cons_zero, hp]

theorem Int32Option_Apply_parse_error (o : Int32Option) (m : Mapping) (a : GoString)
    (rest : List GoString) (h : ¬ optionShaped a) (v : Int) (e : GoError)
    (hp : strconv.ParseInt a 32 = (v, some e)) :
    o.Apply m (a :: rest) = ⟨m, 0, some e⟩ := by
  unfold Int32Option.Apply
  rw [if_pos_guard (show passesShape (a :: rest) from h)]
  simp only [List.getD_cons_zero, hp]

theorem Int32Option_Apply_parsed (o : Int32Option) (m : Mapping) (a : GoString)
    (rest : List GoString) (h : ¬ optionShaped a) (v : Int)
    (hp : strconv.ParseInt a 32 = (v, none)) :
    o.Apply m (a :: rest) = ⟨m.set o.Name (Value.int32 (toInt32 v)), 1, none⟩ := by
  unfold Int32Option.Apply
  rw [if_pos_guard (show passesShape (a :: rest) from h)]
  simp only [List.getD_cons_zero, hp]

theorem Int64Option_Apply_parse_error (o : Int64Option) (m : Mapping) (a : GoString)
    (rest : List GoString) (h : ¬ optionShaped a) (v : Int) (e : GoError)
    (hp : strconv.ParseInt a 64 = (v, some e)) :
    o.Apply m (a :: rest) = ⟨m, 0, some e⟩ := by
  unfold Int64Option.Apply
  rw [if_pos_guard (show passesShape (a :: rest) from h)]
  simp only [List.getD_cons_zero, hp]

theorem Int64Option_Apply_parsed (o : Int64Option) (m : Mapping) (a : GoString)
    (rest : List GoString) (h : ¬ optionShaped a) (v : Int)
    (hp : strconv.ParseInt a 64 = (v, none)) :
    o.Apply m (a :: rest) = ⟨m.set o.Name (Value.int64 (v)), 1, none⟩ := by
  unfold Int64Option.Apply
  rw [if_pos_guard (show passesShape (a :: rest) from h)]
  simp only [List.getD_cons_zero, hp]

theorem Float32Option_Apply_parse_error (L : FloatLib) (o : Float32Option) (m : Mapping)
    (a : GoString) (rest : List GoString) (h : ¬ optionShaped a) (e : GoError)
    (hp : L.ParseFloat a 32 = Except.error e) :
    o.Apply L m (a :: rest) = ⟨m, 0, some e⟩ := by
  unfold Float32Option.Apply
  rw [if_pos_guard (show passesShape (a :: rest) from h)]
  simp only [List.getD_cons_zero, hp]

theorem Float32Option_Apply_parsed (L : FloatLib) (o : Float32Option) (m : Mapping)
    (a : GoString) (rest : List GoString) (h : ¬ optionShaped a) (v : GoFloat64)
    (hp : L.ParseFloat a 32 = Except.ok v) :
    o.Apply L m (a :: rest) = ⟨m.set o.Name (Value.float32 (L.toFloat32 v)), 1, none⟩ := by
  unfold Float32Option.Apply
  rw [if_pos_guard (show passesShape (a :: rest) from h)]
  simp only [List.getD_cons_zero, hp]

theorem Float64Option_Apply_parse_error (L : FloatLib) (o : Float64Option) (m : Mapping)
    (a : GoString) (rest : List GoString) (h : ¬ optionShaped a) (e : GoError)
    (hp : L.ParseFloat a 64 = Except.error e) :
    o.Apply L m (a :: rest) = ⟨m, 0, some e⟩ := by
  unfold Float64Option.Apply
  rw [if_pos_guard (show passesShape (a :: rest) from h)]
  simp only [List.getD_cons_zero, hp]

theorem Float64Option_Apply_parsed (L : FloatLib) (o : Float64Option) (m : Mapping)
    (a : GoString) (rest : List GoString) (h : ¬ optionShaped a) (v : GoFloat64)
    (hp : L.ParseFloat a 64 = Except.ok v) :
    o.Apply L m (a :: rest) = ⟨m.set o.Name (Value.float64 (v)), 1, none⟩ := by
  unfold Float64Option.Apply
  rw [if_pos_guard (show passesShape (a :: rest) from h)]
  simp only [List.getD_cons_zero, hp]

theorem StringOption_Apply_stored (o : StringOption) (m : Mapping) (a : GoString)
    (rest : List GoString) (h : ¬ optionShaped a) :
    o.Apply m (a :: rest) = ⟨m.set o.Name (Value.string a), 1, none⟩ := by
  unfold StringOption.Apply
  rw [if_pos_guard (show passesShape (a :: rest) from h)]
  rfl

/-- Claim C4: for every value-bearing kind, every mapping and every argument
list that is empty or whose first element is option-shaped (length at least 2,
first byte `-`), `Apply` returns the count 0 and the MissingValue error: `errors.New` of the
message `"missing required value: "` followed by the usage string that
`Help()` returns as its first component. -/
theorem Apply_missing_value (m : Mapping) (args : List GoString)
    (h : args = [] ∨ ∃ a rest, args = a :: rest ∧ optionShaped a) :
    (∀ o : StringOption, (o.Apply m args).n = 0 ∧
      (o.Apply m args).err = some (errors.New (lit "missing required value: " ++ o.Help.1))) ∧
    (∀ o : IntOption, (o.Apply m args).n = 0 ∧
      (o.Apply m args).err = some (errors.New (lit "missing required value: " ++ o.Help.1))) ∧
    (∀ o : Int32Option, (o.Apply m args).n = 0 ∧
      (o.Apply m args).err = some (errors.New (lit "missing required value: " ++ o.Help.1))) ∧
    (∀ o : Int64Option, (o.Apply m args).n = 0 ∧
      (o.Apply m args).err = some (errors.New (lit "missing required value: " ++ o.Help.1))) ∧
    (∀ (L : FloatLib) (o : Float32Option), (o.Apply L m args).n = 0 ∧
      (o.Apply L m args).err = some (errors.New (lit "missing required value: " ++ (o.Help L).1))) ∧
    (∀ (L : FloatLib) (o : Float64Option), (o.Apply L m args).n = 0 ∧
      (o.Apply L m args).err = some (errors.New (lit "missing required value: " ++ (o.Help L).1))) := by
  have hs : ¬ passesShape args := (not_passesShape_iff args).mpr h
  refine ⟨?_, ?_, ?_, ?_, ?_, ?_⟩
  · intro o; rw [StringOption_Apply_rejected o m args hs]; exact ⟨rfl, rfl⟩
  · intro o; rw [IntOption_Apply_rejected o m args hs]; exact ⟨rfl, rfl⟩
  · intro o; rw [Int32Option_Apply_rejected o m args hs]; exact ⟨rfl, rfl⟩
  · intro o; rw [Int64Option_Apply_rejected o m args hs]; exact ⟨rfl, rfl⟩
  · intro L o; rw [Float32Option_Apply_rejected L o m args hs]; exact ⟨rfl, rfl⟩
  · intro L o; rw [Float64Option_Apply_rejected L o m args hs]; exact ⟨rfl, rfl⟩

/-- The declaration `IntOption{Name:"port", Short:"p"}` applied to `["-5"]`
consumes nothing and reports `missing required value: -p,--port=number`. -/
theorem Apply_missing_value_witness :
    (IntOption.Apply ⟨lit "port", lit "p", 0, [], [], []⟩ Mapping.empty [lit "-5"]).n = 0 ∧
    (IntOption.Apply ⟨lit "port", lit "p", 0, [], [], []⟩ Mapping.empty [lit "-5"]).err =
      some (errors.New (lit "missing required value: -p,--port=number")) :=
  have h := (Apply_missing_value Mapping.empty [lit "-5"]
    (Or.inr ⟨lit "-5", [], rfl, by decide⟩)).2.1 ⟨lit "port", lit "p", 0, [], [], []⟩
  ⟨h.1, h.2⟩

/-! ## Apply: failure leaves the mapping alone -/

/-- Claim C5: for every option kind, every mapping `m` and every argument
list: if `Apply(m, args...)` returns an error (MissingValue or a numeric parse
failure), then the mapping after the call is `m` and the consumed count is 0.
(A Bool option never returns an error, see C7.) -/
theorem Apply_error_leaves_mapping (m : Mapping) (args : List GoString) :
    (∀ o : BoolOption, (o.Apply m args).err ≠ none →
      (o.Apply m args).options = m ∧ (o.Apply m args).n = 0) ∧
    (∀ o : StringOption, (o.Apply m args).err ≠ none →
      (o.Apply m args).options = m ∧ (o.Apply m args).n = 0) ∧
    (∀ o : IntOption, (o.Apply m args).err ≠ none →
      (o.Apply m args).options = m ∧ (o.Apply m args).n = 0) ∧
    (∀ o : Int32Option, (o.Apply m args).err ≠ none →
      (o.Apply m args).options = m ∧ (o.Apply m args).n = 0) ∧
    (∀ o : Int64Option, (o.Apply m args).err ≠ none →
      (o.Apply m args).options = m ∧ (o.Apply m args).n = 0) ∧
    (∀ (L : FloatLib) (o : Float32Option), (o.Apply L m args).err ≠ none →
      (o.Apply L m args).options = m ∧ (o.Apply L m args).n = 0) ∧
    (∀ (L : FloatLib) (o : Float64Option), (o.Apply L m args).err ≠ none →
      (o.Apply L m args).options = m ∧ (o.Apply L m args).n = 0) := by
  refine ⟨?_, ?_, ?_, ?_, ?_, ?_, ?_⟩
  · intro o h; exact absurd rfl h
  · intro o h
    by_cases hs : passesShape args
    · cases args with
      | nil => exact absurd hs (by simp [passesShape])
      | cons a rest => rw [StringOption_Apply_stored o m a rest hs] at h; exact absurd rfl h
    · rw [StringOption_Apply_rejected o m args hs]; exact ⟨rfl, rfl⟩
  · intro o h
    by_cases hs : passesShape args
    · cases args with
      | nil => exact absurd hs (by simp [passesShape])
      | cons a rest =>
        rcases hp : strconv.ParseInt a 64 with ⟨v, _ | e⟩
        · rw [IntOption_Apply_parsed o m a rest hs v hp] at h; exact absurd rfl h
        · rw [IntOption_Apply_parse_error o m a rest hs v e hp]; exact ⟨rfl, rfl⟩
    · rw [IntOption_Apply_rejected o m args hs]; exact ⟨rfl, rfl⟩
  · intro o h
    by_cases hs : passesShape args
    · cases args with
      | nil => exact absurd hs (by simp [passesShape])
      | cons a rest =>
        rcases hp : strconv.ParseInt a 32 with ⟨v, _ | e⟩
        · rw [Int32Option_Apply_parsed o m a rest hs v hp] at h; exact absurd rfl h
        · rw [Int32Option_Apply_parse_error o m a rest hs v e hp]; exact ⟨rfl, rfl⟩
    · rw [Int32Option_Apply_rejected o m args hs]; exact ⟨rfl, rfl⟩
  · intro o h
    by_cases hs : passesShape args
    · cases args with
      | nil => exact absurd hs (by simp [passesShape])
      | cons a rest =>
        rcases hp : strconv.ParseInt a 64 with ⟨v, _ | e⟩
        · rw [Int64Option_Apply_parsed o m a rest hs v hp] at h; exact absurd rfl h
        · rw [Int64Option_Apply_parse_error o m a rest hs v e hp]; exact ⟨rfl, rfl⟩
    · rw [Int64Option_Apply_rejected o m args hs]; exact ⟨rfl, rfl⟩
  · intro L o h
    by_cases hs : passesShape args
    · cases args with
      | nil => exact absurd hs (by simp [passesShape])
      | cons a rest =>
        rcases hp : L.ParseFloat a 32 with e | v
        · rw [Float32Option_Apply_parse_error L o m a rest hs e hp]; exact ⟨rfl, rfl⟩
        · rw [Float32Option_Apply_parsed L o m a rest hs v hp] at h; exact absurd rfl h
    · rw [Float32Option_Apply_rejected L o m args hs]; exact ⟨rfl, rfl⟩
  · intro L o h
    by_cases hs : passesShape args
    · cases args with
      | nil => exact absurd hs (by simp [passesShape])
      | cons a rest =>
        rcases hp : L.ParseFloat a 64 with e | v
        · rw [Float64Option_Apply_parse_error L o m a rest hs e hp]; exact ⟨rfl, rfl⟩
        · rw [Float64Option_Apply_parsed L o m a rest hs v hp] at h; exact absurd rfl h
    · rw [Float64Option_Apply_rejected L o m args hs]; exact ⟨rfl, rfl⟩

/-- The Int32 option `n` applied to `["12x"]` fails with a syntax error of
`strconv.ParseInt`; the mapping, which held `k = true`, is what it was. -/
theorem Apply_error_leaves_mapping_witness :
    (Int32Option.Apply ⟨lit "n", [], 0, [], [], []⟩
        (Mapping.empty.set (lit "k") (Value.bool true)) [lit "12x"]).err =
      some (GoError.NumError (lit "ParseInt") (lit "12x") NumErr.ErrSyntax) ∧
    (Int32Option.Apply ⟨lit "n", [], 0, [], [], []⟩
        (Mapping.empty.set (lit "k") (Value.bool true)) [lit "12x"]).options =
      Mapping.empty.set (lit "k") (Value.bool true) ∧
    (Int32Option.Apply ⟨lit "n", [], 0, [], [], []⟩
        (Mapping.empty.set (lit "k") (Value.bool true)) [lit "12x"]).n = 0 :=
  ⟨by decide,
    (Apply_error_leaves_mapping (Mapping.empty.set (lit "k") (Value.bool true))
      [lit "12x"]).2.2.2.1 ⟨lit "n", [], 0, [], [], []⟩ (by decide)⟩

/-! ## Apply on the integer kinds: what `strconv.ParseInt` accepts -/

theorem decValue_cons (n : Nat) (c : UInt8) (cs : List UInt8) :
    decValue n (c :: cs) = decValue (n * 10 + (c.toNat - 48)) cs := rfl

theorem le_decValue (ds : List UInt8) : ∀ n : Nat, n ≤ decValue n ds := by
  induction ds with
  | nil => intro n; exact le_refl n
  | cons c cs ih =>
    intro n
    rw [decValue_cons]
    have := ih (n * 10 + (c.toNat - 48))
    omega

theorem digit_of_isDigit (c : UInt8) (h : isDigit c) :
    strconv.ParseUint.digit c = some (c.toNat - 48) := by
  unfold isDigit at h
  simp [strconv.ParseUint.digit, h]

theorem digit_of_not_isDigit (c : UInt8) (h : ¬ isDigit c) :
    strconv.ParseUint.digit c = none ∨ ∃ d, strconv.ParseUint.digit c = some d ∧ d ≥ 10 := by
  unfold isDigit at h
  unfold strconv.ParseUint.digit
  rw [if_neg h]
  split_ifs
  · exact Or.inr ⟨_, rfl, by omega⟩
  · exact Or.inl rfl

theorem ParseUint_loop_spec (s0 : GoString) (maxVal : Nat) (hmax : maxVal < 2 ^ 64)
    (ds : List UInt8) : ∀ n : Nat, n ≤ maxVal →
    (((∀ d ∈ ds, isDigit d) ∧ decValue n ds ≤ maxVal) →
      strconv.ParseUint.loop s0 maxVal n ds = (decValue n ds, none)) ∧
    (¬ ((∀ d ∈ ds, isDigit d) ∧ decValue n ds ≤ maxVal) →
      (∃ x, strconv.ParseUint.loop s0 maxVal n ds =
        (x, some (strconv.syntaxError (lit "ParseUint") s0))) ∨
      strconv.ParseUint.loop s0 maxVal n ds =
        (maxVal, some (strconv.rangeError (lit "ParseUint") s0))) := by
  induction ds with
  | nil =>
    intro n hn
    refine ⟨fun _ => rfl, fun h => ?_⟩
    exact absurd ⟨by simp, hn⟩ h
  | cons c cs ih =>
    intro n hn
    norm_num at hmax
    by_cases hc : isDigit c
    · have hd := digit_of_isDigit c hc
      have hc2 := hc
      unfold isDigit at hc2
      by_cases hcut : n ≥ (2 ^ 64 - 1) / 10 + 1
      · have hbig : ¬ decValue n (c :: cs) ≤ maxVal := by
          rw [decValue_cons]
          have := le_decValue cs (n * 10 + (c.toNat - 48))
          norm_num at hcut
          omega
        refine ⟨fun h => absurd h.2 hbig, fun _ => Or.inr ?_⟩
        rw [strconv.ParseUint.loop]
        simp only [hd]
        rw [if_neg (by omega), if_pos hcut]
      · norm_num at hcut
        by_cases hov : (n * 10 % 2 ^ 64 + (c.toNat - 48)) % 2 ^ 64 < n * 10 % 2 ^ 64 ∨
            (n * 10 % 2 ^ 64 + (c.toNat - 48)) % 2 ^ 64 > maxVal
        · have hbig : ¬ decValue n (c :: cs) ≤ maxVal := by
            rw [decValue_cons]
            have := le_decValue cs (n * 10 + (c.toNat - 48))
            norm_num at hov
            omega
          refine ⟨fun h => absurd h.2 hbig, fun _ => Or.inr ?_⟩
          rw [strconv.ParseUint.loop]
          simp only [hd]
          rw [if_neg (by omega), if_neg (by norm_num; omega), if_pos hov]
        · have hn1 : (n * 10 % 2 ^ 64 + (c.toNat - 48)) % 2 ^ 64 = n * 10 + (c.toNat - 48) := by
            norm_num at hov ⊢
            omega
          have hle : n * 10 + (c.toNat - 48) ≤ maxVal := by
            norm_num at hov
            omega
          have hstep : strconv.ParseUint.loop s0 maxVal n (c :: cs) =
              strconv.ParseUint.loop s0 maxVal (n * 10 + (c.toNat - 48)) cs := by
            rw [strconv.ParseUint.loop]
            simp only [hd]
            rw [if_neg (by omega), if_neg (by norm_num; omega), if_neg hov, hn1]
          have hall : (∀ d ∈ c :: cs, isDigit d) ↔ ∀ d ∈ cs, isDigit d := by
            simp [hc]
          rw [hstep, decValue_cons, hall]
          exact ih _ hle
    · have hno : ¬ ((∀ d ∈ c :: cs, isDigit d) ∧ decValue n (c :: cs) ≤ maxVal) := by
        intro h
        exact hc (h.1 c (List.mem_cons_self c cs))
      refine ⟨fun h => absurd h hno, fun _ => Or.inl ?_⟩
      rcases digit_of_not_isDigit c hc with hd | ⟨d, hd, hd10⟩
      · exact ⟨0, by rw [strconv.ParseUint.loop]; simp only [hd]⟩
      · refine ⟨0, ?_⟩
        rw [strconv.ParseUint.loop]
        simp only [hd]
        rw [if_pos hd10]

theorem ParseUint_spec (s : GoString) (w : Nat) (hw : w = 32 ∨ w = 64) :
    ((s ≠ [] ∧ (∀ d ∈ s, isDigit d) ∧ decValue 0 s ≤ 2 ^ w - 1) →
      strconv.ParseUint s w = (decValue 0 s, none)) ∧
    (¬ (s ≠ [] ∧ (∀ d ∈ s, isDigit d) ∧ decValue 0 s ≤ 2 ^ w - 1) →
      (∃ x, strconv.ParseUint s w = (x, some (strconv.syntaxError (lit "ParseUint") s))) ∨
      strconv.ParseUint s w = (2 ^ w - 1, some (strconv.rangeError (lit "ParseUint") s))) := by
  have hmax : 2 ^ w - 1 < 2 ^ 64 := by
    rcases hw with rfl | rfl <;> norm_num
  by_cases hs : s = []
  · refine ⟨fun h => absurd hs h.1, fun _ => Or.inl ⟨0, ?_⟩⟩
    unfold strconv.ParseUint
    rw [if_pos hs]
  · have hl := ParseUint_loop_spec s (2 ^ w - 1) hmax s 0 (Nat.zero_le _)
    unfold strconv.ParseUint
    rw [if_neg hs]
    refine ⟨fun h => hl.1 h.2, fun h => hl.2 (fun h2 => h ⟨hs, h2⟩)⟩

theorem ParseInt_syntax (c : UInt8) (rest : List UInt8) (w x : Nat) (fn s1 : GoString)
    (h : strconv.ParseUint (if c = 43 then rest else if c = 45 then rest else c :: rest) w =
      (x, some (strconv.syntaxError fn s1))) :
    strconv.ParseInt (c :: rest) w =
      (0, some (GoError.NumError (lit "ParseInt") (c :: rest) NumErr.ErrSyntax)) := by
  unfold strconv.ParseInt
  simp only [h, strconv.syntaxError]

theorem ParseInt_range (c : UInt8) (rest : List UInt8) (w : Nat) (hw : w = 32 ∨ w = 64)
    (fn s1 : GoString)
    (h : strconv.ParseUint (if c = 43 then rest else if c = 45 then rest else c :: rest) w =
      (2 ^ w - 1, some (strconv.rangeError fn s1))) :
    ∃ v, strconv.ParseInt (c :: rest) w =
      (v, some (GoError.NumError (lit "ParseInt") (c :: rest) NumErr.ErrRange)) := by
  unfold strconv.ParseInt
  simp only [h, strconv.rangeError]
  by_cases hneg : c = 45
  · rcases hw with rfl | rfl <;> simp [hneg]
  · rcases hw with rfl | rfl <;> simp [hneg]

theorem ParseInt_value (c : UInt8) (rest : List UInt8) (w un : Nat)
    (h : strconv.ParseUint (if c = 43 then rest else if c = 45 then rest else c :: rest) w =
      (un, none)) :
    strconv.ParseInt (c :: rest) w =
      if ¬ c = 45 ∧ un ≥ 2 ^ (w - 1) then
        (((2 ^ (w - 1) - 1 : Nat) : Int),
          some (strconv.rangeError (lit "ParseInt") (c :: rest)))
      else if c = 45 ∧ un > 2 ^ (w - 1) then
        (-((2 ^ (w - 1) : Nat) : Int), some (strconv.rangeError (lit "ParseInt") (c :: rest)))
      else if c = 45 then (toInt64 (-(toInt64 un)), none) else (toInt64 un, none) := by
  unfold strconv.ParseInt
  simp only [h]

theorem ParseInt_of_value (c : UInt8) (rest : List UInt8) (w : Nat) (hw : w = 32 ∨ w = 64)
    (dv : Nat) (hle : dv ≤ 2 ^ w - 1)
    (hu : strconv.ParseUint (if c = 43 then rest else if c = 45 then rest else c :: rest) w =
      (dv, none)) :
    (fitsWidth w (if c = 45 then -(dv : Int) else dv) →
      strconv.ParseInt (c :: rest) w = ((if c = 45 then -(dv : Int) else dv), none)) ∧
    (¬ fitsWidth w (if c = 45 then -(dv : Int) else dv) →
      ∃ v k, strconv.ParseInt (c :: rest) w =
        (v, some (GoError.NumError (lit "ParseInt") (c :: rest) k))) := by
  rw [ParseInt_value c rest w dv hu]
  by_cases hneg : c = 45
  · have h1 : ¬ (¬ c = 45 ∧ dv ≥ 2 ^ (w - 1)) := fun h => h.1 hneg
    simp only [if_neg h1, if_pos hneg]
    by_cases hgt : dv > 2 ^ (w - 1)
    · have h2 : c = 45 ∧ dv > 2 ^ (w - 1) := ⟨hneg, hgt⟩
      simp only [if_pos h2]
      refine ⟨fun h => ?_, fun _ => ⟨_, _, rfl⟩⟩
      exfalso
      unfold fitsWidth at h
      rcases hw with rfl | rfl <;> norm_num at h hgt <;> omega
    · have h2 : ¬ (c = 45 ∧ dv > 2 ^ (w - 1)) := fun h => hgt h.2
      simp only [if_neg h2]
      refine ⟨fun _ => ?_, fun h => ?_⟩
      · have hv : toInt64 (-(toInt64 dv)) = -(dv : Int) := by
          unfold toInt64 wrap
          rcases hw with rfl | rfl <;> norm_num at hgt ⊢ <;> omega
        rw [hv]
      · exfalso
        apply h
        unfold fitsWidth
        rcases hw with rfl | rfl <;> norm_num at hgt ⊢ <;> omega
  · have h2 : ¬ (c = 45 ∧ dv > 2 ^ (w - 1)) := fun h => hneg h.1
    simp only [if_neg h2, if_neg hneg]
    by_cases hge : dv ≥ 2 ^ (w - 1)
    · have h1 : ¬ c = 45 ∧ dv ≥ 2 ^ (w - 1) := ⟨hneg, hge⟩
      simp only [if_pos h1]
      refine ⟨fun h => ?_, fun _ => ⟨_, _, rfl⟩⟩
      exfalso
      unfold fitsWidth at h
      rcases hw with rfl | rfl <;> norm_num at h hge <;> omega
    · have h1 : ¬ (¬ c = 45 ∧ dv ≥ 2 ^ (w - 1)) := fun h => hge h.2
      simp only [if_neg h1]
      refine ⟨fun _ => ?_, fun h => ?_⟩
      · have hv : toInt64 (dv : Int) = (dv : Int) := by
          unfold toInt64 wrap
          rcases hw with rfl | rfl <;> norm_num at hge ⊢ <;> omega
        rw [hv]
      · exfalso
        apply h
        unfold fitsWidth
        rcases hw with rfl | rfl <;> norm_num at hge ⊢ <;> omega

theorem ParseInt_core (c : UInt8) (rest : List UInt8) (w : Nat) (hw : w = 32 ∨ w = 64) :
    ((((if c = 43 then rest else if c = 45 then rest else c :: rest) ≠ [] ∧
        (∀ d ∈ (if c = 43 then rest else if c = 45 then rest else c :: rest), isDigit d)) ∧
        fitsWidth w (if c = 45
          then -((decValue 0 (if c = 43 then rest else if c = 45 then rest else c :: rest) : Nat) : Int)
          else (decValue 0 (if c = 43 then rest else if c = 45 then rest else c :: rest) : Nat))) →
      strconv.ParseInt (c :: rest) w =
        ((if c = 45
          then -((decValue 0 (if c = 43 then rest else if c = 45 then rest else c :: rest) : Nat) : Int)
          else (decValue 0 (if c = 43 then rest else if c = 45 then rest else c :: rest) : Nat)),
          none)) ∧
    (¬ (((if c = 43 then rest else if c = 45 then rest else c :: rest) ≠ [] ∧
        (∀ d ∈ (if c = 43 then rest else if c = 45 then rest else c :: rest), isDigit d)) ∧
        fitsWidth w (if c = 45
          then -((decValue 0 (if c = 43 then rest else if c = 45 then rest else c :: rest) : Nat) : Int)
          else (decValue 0 (if c = 43 then rest else if c = 45 then rest else c :: rest) : Nat))) →
      ∃ v k, strconv.ParseInt (c :: rest) w =
        (v, some (GoError.NumError (lit "ParseInt") (c :: rest) k))) := by
  generalize hsel : (if c = 43 then rest else if c = 45 then rest else c :: rest) = ds
  have hu := ParseUint_spec ds w hw
  by_cases hlit : ds ≠ [] ∧ (∀ d ∈ ds, isDigit d) ∧ decValue 0 ds ≤ 2 ^ w - 1
  · have hv := ParseInt_of_value c rest w hw (decValue 0 ds) hlit.2.2 (by rw [hsel]; exact hu.1 hlit)
    exact ⟨fun h => hv.1 h.2, fun h => hv.2 (fun hf => h ⟨⟨hlit.1, hlit.2.1⟩, hf⟩)⟩
  · have hnot : ¬ ((ds ≠ [] ∧ (∀ d ∈ ds, isDigit d)) ∧
        fitsWidth w (if c = 45 then -((decValue 0 ds : Nat) : Int) else (decValue 0 ds : Nat))) := by
      rintro ⟨⟨h1, h2⟩, h3⟩
      apply hlit
      refine ⟨h1, h2, ?_⟩
      unfold fitsWidth at h3
      generalize decValue 0 ds = dv at h3 ⊢
      by_cases hneg : c = 45
      · rw [if_pos hneg] at h3
        rcases hw with rfl | rfl <;> norm_num at h3 ⊢ <;> omega
      · rw [if_neg hneg] at h3
        rcases hw with rfl | rfl <;> norm_num at h3 ⊢ <;> omega
    refine ⟨fun h => absurd h hnot, fun _ => ?_⟩
    rcases hu.2 hlit with ⟨x, hx⟩ | hr
    · exact ⟨0, _, ParseInt_syntax c rest w x _ _ (by rw [hsel]; exact hx)⟩
    · obtain ⟨v, hv⟩ := ParseInt_range c rest w hw _ _ (by rw [hsel]; exact hr)
      exact ⟨v, _, hv⟩

theorem ParseInt_spec (a : GoString) (w : Nat) (hw : w = 32 ∨ w = 64) :
    ((isIntLiteral a ∧ fitsWidth w (literalValue a)) →
      strconv.ParseInt a w = (literalValue a, none)) ∧
    (¬ (isIntLiteral a ∧ fitsWidth w (literalValue a)) →
      ∃ v k, strconv.ParseInt a w = (v, some (GoError.NumError (lit "ParseInt") a k))) := by
  cases a with
  | nil =>
    refine ⟨fun h => absurd h.1 (by simp [isIntLiteral]), fun _ => ⟨0, NumErr.ErrSyntax, rfl⟩⟩
  | cons c rest =>
    have hc := ParseInt_core c rest w hw
    by_cases h43 : c = 43
    · have h45 : ¬ c = 45 := by rw [h43]; decide
      simp only [h45, if_false] at hc
      rw [if_pos h43] at hc
      have e1 : isIntLiteral (c :: rest) ↔ (rest ≠ [] ∧ ∀ d ∈ rest, isDigit d) := by
        simp [isIntLiteral, h43]
      have e2 : literalValue (c :: rest) = ((decValue 0 rest : Nat) : Int) := by
        simp [literalValue, h43]
      rw [e1, e2]
      exact hc
    · by_cases h45 : c = 45
      · rw [if_neg h43, if_pos h45, if_pos h45] at hc
        have e1 : isIntLiteral (c :: rest) ↔ (rest ≠ [] ∧ ∀ d ∈ rest, isDigit d) := by
          simp [isIntLiteral, h45]
        have e2 : literalValue (c :: rest) = -((decValue 0 rest : Nat) : Int) := by
          simp [literalValue, h45]
        rw [e1, e2]
        exact hc
      · rw [if_neg h43, if_neg h45, if_neg h45] at hc
        have e1 : isIntLiteral (c :: rest) ↔
            ((c :: rest) ≠ [] ∧ ∀ d ∈ c :: rest, isDigit d) := by
          simp [isIntLiteral, h43, h45]
        have e2 : literalValue (c :: rest) = ((decValue 0 (c :: rest) : Nat) : Int) := by
          simp [literalValue, h43, h45]
        rw [e1, e2]
        exact hc

/-- Claim C6: for every Int, Int32 and Int64 option, every mapping `m` and
every argument list `a :: rest` whose first element passes the shape
precondition: if `a` is a valid base-10 signed integer literal whose value
fits the kind's bit width (32 for Int32, 64 for Int64 and Int), `Apply`
returns 1 and no error and the mapping is `m` with `m[Name]` that integer in
the kind's type; otherwise `Apply` returns 0, leaves the mapping alone and
returns the error of `strconv.ParseInt`, a `*strconv.NumError`, which is not a
MissingValue error. -/
theorem IntOptions_Apply_spec (m : Mapping) (a : GoString) (rest : List GoString)
    (h : ¬ optionShaped a) :
    (∀ o : IntOption,
      (isIntLiteral a ∧ fitsWidth 64 (literalValue a) →
        o.Apply m (a :: rest) = ⟨m.set o.Name (Value.int (literalValue a)), 1, none⟩) ∧
      (¬ (isIntLiteral a ∧ fitsWidth 64 (literalValue a)) →
        ∃ k, o.Apply m (a :: rest) = ⟨m, 0, some (GoError.NumError (lit "ParseInt") a k)⟩ ∧
          (strconv.ParseInt a 64).2 = some (GoError.NumError (lit "ParseInt") a k) ∧
          ∀ u, GoError.NumError (lit "ParseInt") a k ≠ missingValue u)) ∧
    (∀ o : Int32Option,
      (isIntLiteral a ∧ fitsWidth 32 (literalValue a) →
        o.Apply m (a :: rest) = ⟨m.set o.Name (Value.int32 (literalValue a)), 1, none⟩) ∧
      (¬ (isIntLiteral a ∧ fitsWidth 32 (literalValue a)) →
        ∃ k, o.Apply m (a :: rest) = ⟨m, 0, some (GoError.NumError (lit "ParseInt") a k)⟩ ∧
          (strconv.ParseInt a 32).2 = some (GoError.NumError (lit "ParseInt") a k) ∧
          ∀ u, GoError.NumError (lit "ParseInt") a k ≠ missingValue u)) ∧
    (∀ o : Int64Option,
      (isIntLiteral a ∧ fitsWidth 64 (literalValue a) →
        o.Apply m (a :: rest) = ⟨m.set o.Name (Value.int64 (literalValue a)), 1, none⟩) ∧
      (¬ (isIntLiteral a ∧ fitsWidth 64 (literalValue a)) →
        ∃ k, o.Apply m (a :: rest) = ⟨m, 0, some (GoError.NumError (lit "ParseInt") a k)⟩ ∧
          (strconv.ParseInt a 64).2 = some (GoError.NumError (lit "ParseInt") a k) ∧
          ∀ u, GoError.NumError (lit "ParseInt") a k ≠ missingValue u)) := by
  have h64 := ParseInt_spec a 64 (Or.inr rfl)
  have h32 := ParseInt_spec a 32 (Or.inl rfl)
  refine ⟨fun o => ⟨fun hl => ?_, fun hn => ?_⟩, fun o => ⟨fun hl => ?_, fun hn => ?_⟩,
    fun o => ⟨fun hl => ?_, fun hn => ?_⟩⟩
  · rw [IntOption_Apply_parsed o m a rest h _ (h64.1 hl), toInt, wrap_of_fits64 _ hl.2]
  · obtain ⟨v, k, hk⟩ := h64.2 hn
    exact ⟨k, IntOption_Apply_parse_error o m a rest h v _ hk, by rw [hk],
      fun u e => by simp [missingValue, errors.New] at e⟩
  · rw [Int32Option_Apply_parsed o m a rest h _ (h32.1 hl), toInt32, wrap_of_fits32 _ hl.2]
  · obtain ⟨v, k, hk⟩ := h32.2 hn
    exact ⟨k, Int32Option_Apply_parse_error o m a rest h v _ hk, by rw [hk],
      fun u e => by simp [missingValue, errors.New] at e⟩
  · rw [Int64Option_Apply_parsed o m a rest h _ (h64.1 hl)]
  · obtain ⟨v, k, hk⟩ := h64.2 hn
    exact ⟨k, Int64Option_Apply_parse_error o m a rest h v _ hk, by rw [hk],
      fun u e => by simp [missingValue, errors.New] at e⟩

/-- The declaration `IntOption{Name:"port", Short:"p"}` applied to `["8080"]`
stores the integer 8080 and consumes one argument. -/
theorem IntOptions_Apply_spec_witness :
    ¬ optionShaped (lit "8080") ∧
    IntOption.Apply ⟨lit "port", lit "p", 0, [], [], []⟩ Mapping.empty [lit "8080"] =
      ⟨Mapping.empty.set (lit "port") (Value.int 8080), 1, none⟩ :=
  ⟨by decide,
    ((IntOptions_Apply_spec Mapping.empty (lit "8080") [] (by decide)).1
      ⟨lit "port", lit "p", 0, [], [], []⟩).1 ⟨by decide, by decide⟩⟩

/-! ## Apply on a Bool option -/

/-- Claim C7: for every Bool option, every mapping `m` and every argument
list (the empty one included), `Apply(m, args...)` returns 0 and no error, the
resulting mapping is `m` with `m[Name] = true`, and the result is the same for
every argument list. -/
theorem BoolOption_Apply_spec (o : BoolOption) (m : Mapping) (args : List GoString) :
    (o.Apply m args).n = 0 ∧ (o.Apply m args).err = none ∧
    (o.Apply m args).options = m.set o.Name (Value.bool true) ∧
    (o.Apply m args).options o.Name = some (Value.bool true) ∧
    (∀ args2 : List GoString, o.Apply m args2 = o.Apply m args) := by
  refine ⟨rfl, rfl, rfl, ?_, fun _ => rfl⟩
  simp [BoolOption.Apply, Mapping.set]

/-! ## Help -/

theorem usage_eq_usageSpec (word Short Name Usage ArgUsage : GoString) :
    (if Usage = [] then
      if Name ≠ [] then
        if ArgUsage ≠ [] then
          (if (if Short ≠ [] then lit "-" ++ Short else Usage) ≠ [] then
            (if Short ≠ [] then lit "-" ++ Short else Usage) ++ lit ","
            else (if Short ≠ [] then lit "-" ++ Short else Usage)) ++
            (lit "--" ++ Name ++ lit "=") ++ ArgUsage
        else
          (if (if Short ≠ [] then lit "-" ++ Short else Usage) ≠ [] then
            (if Short ≠ [] then lit "-" ++ Short else Usage) ++ lit ","
            else (if Short ≠ [] then lit "-" ++ Short else Usage)) ++
            (lit "--" ++ Name ++ lit "=") ++ word
      else (if Short ≠ [] then lit "-" ++ Short else Usage)
    else Usage) = usageSpec word Short Name Usage ArgUsage := by
  have h1 : lit ",--" = lit "," ++ lit "--" := by decide
  unfold usageSpec
  by_cases hu : Usage = [] <;> by_cases hn : Name = [] <;> by_cases hs : Short = [] <;>
    by_cases ha : ArgUsage = [] <;> simp [hu, hn, hs, ha, h1, lit_dash]

/-- Claim C8: for every value-bearing kind the usage that `Help()` returns is
the `Usage` field verbatim when it is non-empty; otherwise, with `P` the
`ArgUsage` field if non-empty and else the kind's default word (`string` for
String, `number` for the five numeric kinds), it is `-Short,--Name=P` when
both fields are non-empty, `--Name=P` when only `Name` is, `-Short` without a
placeholder when only `Short` is, and empty when both are empty (this case
analysis is `usageSpec`).  `IntOption{Name:"port", Short:"p"}` yields
`-p,--port=number`. -/
theorem Help_usage_spec :
    (∀ o : StringOption, o.Help.1 = usageSpec (lit "string") o.Short o.Name o.Usage o.ArgUsage) ∧
    (∀ o : IntOption, o.Help.1 = usageSpec (lit "number") o.Short o.Name o.Usage o.ArgUsage) ∧
    (∀ o : Int32Option, o.Help.1 = usageSpec (lit "number") o.Short o.Name o.Usage o.ArgUsage) ∧
    (∀ o : Int64Option, o.Help.1 = usageSpec (lit "number") o.Short o.Name o.Usage o.ArgUsage) ∧
    (∀ (L : FloatLib) (o : Float32Option),
      (o.Help L).1 = usageSpec (lit "number") o.Short o.Name o.Usage o.ArgUsage) ∧
    (∀ (L : FloatLib) (o : Float64Option),
      (o.Help L).1 = usageSpec (lit "number") o.Short o.Name o.Usage o.ArgUsage) ∧
    (IntOption.Help ⟨lit "port", lit "p", 8080, [], [], []⟩).1 = lit "-p,--port=number" := by
  refine ⟨?_, ?_, ?_, ?_, ?_, ?_, by decide⟩
  · intro o; exact usage_eq_usageSpec _ o.Short o.Name o.Usage o.ArgUsage
  · intro o; exact usage_eq_usageSpec _ o.Short o.Name o.Usage o.ArgUsage
  · intro o; exact usage_eq_usageSpec _ o.Short o.Name o.Usage o.ArgUsage
  · intro o; exact usage_eq_usageSpec _ o.Short o.Name o.Usage o.ArgUsage
  · intro L o; exact usage_eq_usageSpec _ o.Short o.Name o.Usage o.ArgUsage
  · intro L o; exact usage_eq_usageSpec _ o.Short o.Name o.Usage o.ArgUsage

theorem annotation_ne_nil (V : GoString) : lit " (default: " ++ V ++ lit ")" ≠ [] := by
  simp [lit]

theorem append_annotation_ne (D V : GoString) : D ≠ D ++ (lit " (default: " ++ V ++ lit ")") := by
  intro h
  exact annotation_ne_nil V (List.self_eq_append_right.mp h)

/-- Claim C9: for every String, Int, Int32 and Int64 option (the default of an
Int or Int32 option being a value of its type), the description that `Help()`
returns is `Description` followed by `" (default: " + V + ")"` if and only if
the default is non-zero (non-empty for String), `V` being the default string
itself for String and `strconv.FormatInt(DefaultValue, 10)` for the integer
kinds; with a zero or empty default it is `Description` exactly.  Hence the
annotation is shown exactly when `SetDefaultValue` on the empty mapping leaves
a value under `Name`. -/
theorem Help_description_spec :
    (∀ o : StringOption,
      (o.Help.2 = o.Description ++ (lit " (default: " ++ o.DefaultValue ++ lit ")") ↔
        o.DefaultValue ≠ []) ∧
      (o.DefaultValue = [] → o.Help.2 = o.Description) ∧
      (o.Help.2 = o.Description ++ (lit " (default: " ++ o.DefaultValue ++ lit ")") ↔
        o.SetDefaultValue Mapping.empty o.Name = some (Value.string o.DefaultValue))) ∧
    (∀ o : IntOption, fitsWidth 64 o.DefaultValue →
      (o.Help.2 = o.Description ++
          (lit " (default: " ++ strconv.FormatInt o.DefaultValue ++ lit ")") ↔
        o.DefaultValue ≠ 0) ∧
      (o.DefaultValue = 0 → o.Help.2 = o.Description) ∧
      (o.Help.2 = o.Description ++
          (lit " (default: " ++ strconv.FormatInt o.DefaultValue ++ lit ")") ↔
        o.SetDefaultValue Mapping.empty o.Name = some (Value.int o.DefaultValue))) ∧
    (∀ o : Int32Option, fitsWidth 32 o.DefaultValue →
      (o.Help.2 = o.Description ++
          (lit " (default: " ++ strconv.FormatInt o.DefaultValue ++ lit ")") ↔
        o.DefaultValue ≠ 0) ∧
      (o.DefaultValue = 0 → o.Help.2 = o.Description) ∧
      (o.Help.2 = o.Description ++
          (lit " (default: " ++ strconv.FormatInt o.DefaultValue ++ lit ")") ↔
        o.SetDefaultValue Mapping.empty o.Name = some (Value.int32 o.DefaultValue))) ∧
    (∀ o : Int64Option,
      (o.Help.2 = o.Description ++
          (lit " (default: " ++ strconv.FormatInt o.DefaultValue ++ lit ")") ↔
        o.DefaultValue ≠ 0) ∧
      (o.DefaultValue = 0 → o.Help.2 = o.Description) ∧
      (o.Help.2 = o.Description ++
          (lit " (default: " ++ strconv.FormatInt o.DefaultValue ++ lit ")") ↔
        o.SetDefaultValue Mapping.empty o.Name = some (Value.int64 o.DefaultValue))) := by
  refine ⟨?_, ?_, ?_, ?_⟩
  · intro o
    by_cases h : o.DefaultValue = []
    · have hd : o.Help.2 = o.Description := by simp [StringOption.Help, h]
      refine ⟨?_, fun _ => hd, ?_⟩
      · rw [hd]; exact ⟨fun e => absurd e (append_annotation_ne _ _), fun e => absurd h e⟩
      · rw [hd]
        refine ⟨fun e => absurd e (append_annotation_ne _ _), fun e => ?_⟩
        simp [StringOption.SetDefaultValue, h, Mapping.empty] at e
    · have hd : o.Help.2 = o.Description ++ (lit " (default: " ++ o.DefaultValue ++ lit ")") := by
        simp [StringOption.Help, h]
      refine ⟨⟨fun _ => h, fun _ => hd⟩, fun e => absurd e h, fun _ => ?_, fun _ => hd⟩
      simp [StringOption.SetDefaultValue, h, Mapping.set]
  · intro o hf
    have hw : toInt64 o.DefaultValue = o.DefaultValue := wrap_of_fits64 _ hf
    by_cases h : o.DefaultValue = 0
    · have hd : o.Help.2 = o.Description := by simp [IntOption.Help, h]
      refine ⟨?_, fun _ => hd, ?_⟩
      · rw [hd]; exact ⟨fun e => absurd e (append_annotation_ne _ _), fun e => absurd h e⟩
      · rw [hd]
        refine ⟨fun e => absurd e (append_annotation_ne _ _), fun e => ?_⟩
        simp [IntOption.SetDefaultValue, h, Mapping.empty] at e
    · have hd : o.Help.2 = o.Description ++
          (lit " (default: " ++ strconv.FormatInt o.DefaultValue ++ lit ")") := by
        simp [IntOption.Help, h, hw]
      refine ⟨⟨fun _ => h, fun _ => hd⟩, fun e => absurd e h, fun _ => ?_, fun _ => hd⟩
      simp [IntOption.SetDefaultValue, h, Mapping.set]
  · intro o hf
    have hw : toInt64 o.DefaultValue = o.DefaultValue :=
      wrap_of_fits64 _ (fits64_of_fits32 _ hf)
    by_cases h : o.DefaultValue = 0
    · have hd : o.Help.2 = o.Description := by simp [Int32Option.Help, h]
      refine ⟨?_, fun _ => hd, ?_⟩
      · rw [hd]; exact ⟨fun e => absurd e (append_annotation_ne _ _), fun e => absurd h e⟩
      · rw [hd]
        refine ⟨fun e => absurd e (append_annotation_ne _ _), fun e => ?_⟩
        simp [Int32Option.SetDefaultValue, h, Mapping.empty] at e
    · have hd : o.Help.2 = o.Description ++
          (lit " (default: " ++ strconv.FormatInt o.DefaultValue ++ lit ")") := by
        simp [Int32Option.Help, h, hw]
      refine ⟨⟨fun _ => h, fun _ => hd⟩, fun e => absurd e h, fun _ => ?_, fun _ => hd⟩
      simp [Int32Option.SetDefaultValue, h, Mapping.set]
  · intro o
    by_cases h : o.DefaultValue = 0
    · have hd : o.Help.2 = o.Description := by simp [Int64Option.Help, h]
      refine ⟨?_, fun _ => hd, ?_⟩
      · rw [hd]; exact ⟨fun e => absurd e (append_annotation_ne _ _), fun e => absurd h e⟩
      · rw [hd]
        refine ⟨fun e => absurd e (append_annotation_ne _ _), fun e => ?_⟩
        simp [Int64Option.SetDefaultValue, h, Mapping.empty] at e
    · have hd : o.Help.2 = o.Description ++
          (lit " (default: " ++ strconv.FormatInt o.DefaultValue ++ lit ")") := by
        simp [Int64Option.Help, h]
      refine ⟨⟨fun _ => h, fun _ => hd⟩, fun e => absurd e h, fun _ => ?_, fun _ => hd⟩
      simp [Int64Option.SetDefaultValue, h, Mapping.set]

/-- The declaration `IntOption{Name:"port", Short:"p", DefaultValue:8080}`
with the description `listen port` has the help description
`listen port (default: 8080)`. -/
theorem Help_description_spec_witness :
    fitsWidth 64 8080 ∧
    (IntOption.Help ⟨lit "port", lit "p", 8080, lit "listen port", [], []⟩).2 =
      lit "listen port (default: 8080)" :=
  ⟨by decide,
    ((Help_description_spec.2.1 ⟨lit "port", lit "p", 8080, lit "listen port", [], []⟩
      (by decide)).1).mpr (by decide)⟩

/-- Claim C10: for every Bool option `Help()` returns the description
`Description` exactly, and as usage the `Usage` field when it is non-empty,
otherwise the elements of `Keywords()` joined with `,`, that is `-Short`,
`--Name`, `-Short,--Name` or the empty string, without a placeholder; the
result does not depend on the `ArgUsage` field. -/
theorem BoolOption_Help_spec (o : BoolOption) :
    o.Help.2 = o.Description ∧
    (o.Usage ≠ [] → o.Help.1 = o.Usage) ∧
    (o.Usage = [] → o.Help.1 = (lit ",").intercalate o.Keywords) ∧
    (o.Usage = [] → o.Short ≠ [] → o.Name ≠ [] →
      o.Help.1 = lit "-" ++ o.Short ++ lit ",--" ++ o.Name) ∧
    (o.Usage = [] → o.Short ≠ [] → o.Name = [] → o.Help.1 = lit "-" ++ o.Short) ∧
    (o.Usage = [] → o.Short = [] → o.Name ≠ [] → o.Help.1 = lit "--" ++ o.Name) ∧
    (o.Usage = [] → o.Short = [] → o.Name = [] → o.Help.1 = []) ∧
    (∀ a : GoString, BoolOption.Help ⟨o.Name, o.Short, o.Description, o.Usage, a⟩ = o.Help) := by
  have h1 : lit ",--" = lit "," ++ lit "--" := by decide
  refine ⟨rfl, ?_, ?_, ?_, ?_, ?_, ?_, fun _ => rfl⟩
  · intro hu; simp [BoolOption.Help, hu]
  · intro hu
    by_cases hs : o.Short = [] <;> by_cases hn : o.Name = [] <;>
      simp [BoolOption.Help, BoolOption.Keywords, hu, hs, hn, List.intercalate, lit_dash]
  · intro hu hs hn; simp [BoolOption.Help, hu, hs, hn, h1, lit_dash]
  · intro hu hs hn; simp [BoolOption.Help, hu, hs, hn]
  · intro hu hs hn; simp [BoolOption.Help, hu, hs, hn]
  · intro hu hs hn; simp [BoolOption.Help, hu, hs, hn]

/-- The declaration `BoolOption{Name:"verbose", Short:"v"}` has the usage
`-v,--verbose`. -/
theorem BoolOption_Help_spec_witness :
    (BoolOption.Help ⟨lit "verbose", lit "v", [], [], lit "LEVEL"⟩).1 = lit "-v,--verbose" :=
  (BoolOption_Help_spec ⟨lit "verbose", lit "v", [], [], lit "LEVEL"⟩).2.2.2.1
    rfl (by decide) (by decide)

/-! ## Apply and SetDefaultValue: the possible outcomes -/

theorem Mapping.set_same (m : Mapping) (k : GoString) (v : Value) : m.set k v k = some v := by
  simp [Mapping.set]

theorem Mapping.set_other (m : Mapping) (k k2 : GoString) (v : Value) (h : k2 ≠ k) :
    m.set k v k2 = m k2 := by
  simp [Mapping.set, h]

theorem Mapping.set_set (m : Mapping) (k : GoString) (v v2 : Value) :
    (m.set k v).set k v2 = m.set k v2 := by
  funext x
  by_cases h : x = k <;> simp [Mapping.set, h]

theorem ParseInt_ok (a : GoString) (w : Nat) (hw : w = 32 ∨ w = 64) (v : Int)
    (h : strconv.ParseInt a w = (v, none)) :
    isIntLiteral a ∧ fitsWidth w (literalValue a) ∧ v = literalValue a := by
  by_cases hc : isIntLiteral a ∧ fitsWidth w (literalValue a)
  · have h2 := (ParseInt_spec a w hw).1 hc
    rw [h] at h2
    exact ⟨hc.1, hc.2, (Prod.mk.inj h2).1⟩
  · obtain ⟨x, k, hk⟩ := (ParseInt_spec a w hw).2 hc
    rw [h] at hk
    exact absurd (Prod.mk.inj hk).2 (by simp)

theorem literalValue_nonneg (a : GoString) (hs : ¬ optionShaped a) (hl : isIntLiteral a) :
    0 ≤ literalValue a := by
  cases a with
  | nil => simp [literalValue]
  | cons c rest =>
    by_cases h45 : c = 45
    · exfalso
      apply hs
      have hr : rest ≠ [] := by
        simp [isIntLiteral, h45] at hl
        exact hl.1
      cases rest with
      | nil => exact absurd rfl hr
      | cons d ds => simp [optionShaped, h45]
    · simp only [literalValue, if_neg h45]
      split_ifs <;> exact Int.ofNat_nonneg _

theorem StringOption_Apply_cases (o : StringOption) (m : Mapping) (args : List GoString) :
    (∃ e, o.Apply m args = ⟨m, 0, some e⟩) ∨
    (∃ a rest, args = a :: rest ∧ ¬ optionShaped a ∧
      o.Apply m args = ⟨m.set o.Name (Value.string a), 1, none⟩) := by
  by_cases hs : passesShape args
  · cases args with
    | nil => exact absurd hs (by simp [passesShape])
    | cons a rest => exact Or.inr ⟨a, rest, rfl, hs, StringOption_Apply_stored o m a rest hs⟩
  · exact Or.inl ⟨_, StringOption_Apply_rejected o m args hs⟩

theorem IntOption_Apply_cases (o : IntOption) (m : Mapping) (args : List GoString) :
    (∃ e, o.Apply m args = ⟨m, 0, some e⟩) ∨
    (∃ a rest v, args = a :: rest ∧ ¬ optionShaped a ∧ strconv.ParseInt a 64 = (v, none) ∧
      o.Apply m args = ⟨m.set o.Name (Value.int (toInt v)), 1, none⟩) := by
  by_cases hs : passesShape args
  · cases args with
    | nil => exact absurd hs (by simp [passesShape])
    | cons a rest =>
      rcases hp : strconv.ParseInt a 64 with ⟨v, _ | e⟩
      · exact Or.inr ⟨a, rest, v, rfl, hs, hp, IntOption_Apply_parsed o m a rest hs v hp⟩
      · exact Or.inl ⟨e, IntOption_Apply_parse_error o m a rest hs v e hp⟩
  · exact Or.inl ⟨_, IntOption_Apply_rejected o m args hs⟩

theorem Int32Option_Apply_cases (o : Int32Option) (m : Mapping) (args : List GoString) :
    (∃ e, o.Apply m args = ⟨m, 0, some e⟩) ∨
    (∃ a rest v, args = a :: rest ∧ ¬ optionShaped a ∧ strconv.ParseInt a 32 = (v, none) ∧
      o.Apply m args = ⟨m.set o.Name (Value.int32 (toInt32 v)), 1, none⟩) := by
  by_cases hs : passesShape args
  · cases args with
    | nil => exact absurd hs (by simp [passesShape])
    | cons a rest =>
      rcases hp : strconv.ParseInt a 32 with ⟨v, _ | e⟩
      · exact Or.inr ⟨a, rest, v, rfl, hs, hp, Int32Option_Apply_parsed o m a rest hs v hp⟩
      · exact Or.inl ⟨e, Int32Option_Apply_parse_error o m a rest hs v e hp⟩
  · exact Or.inl ⟨_, Int32Option_Apply_rejected o m args hs⟩

theorem Int64Option_Apply_cases (o : Int64Option) (m : Mapping) (args : List GoString) :
    (∃ e, o.Apply m args = ⟨m, 0, some e⟩) ∨
    (∃ a rest v, args = a :: rest ∧ ¬ optionShaped a ∧ strconv.ParseInt a 64 = (v, none) ∧
      o.Apply m args = ⟨m.set o.Name (Value.int64 (v)), 1, none⟩) := by
  by_cases hs : passesShape args
  · cases args with
    | nil => exact absurd hs (by simp [passesShape])
    | cons a rest =>
      rcases hp : strconv.ParseInt a 64 with ⟨v, _ | e⟩
      · exact Or.inr ⟨a, rest, v, rfl, hs, hp, Int64Option_Apply_parsed o m a rest hs v hp⟩
      · exact Or.inl ⟨e, Int64Option_Apply_parse_error o m a rest hs v e hp⟩
  · exact Or.inl ⟨_, Int64Option_Apply_rejected o m args hs⟩

theorem Float32Option_Apply_cases (L : FloatLib) (o : Float32Option) (m : Mapping)
    (args : List GoString) :
    (∃ e, o.Apply L m args = ⟨m, 0, some e⟩) ∨
    (∃ a rest v, args = a :: rest ∧ ¬ optionShaped a ∧ L.ParseFloat a 32 = Except.ok v ∧
      o.Apply L m args = ⟨m.set o.Name (Value.float32 (L.toFloat32 v)), 1, none⟩) := by
  by_cases hs : passesShape args
  · cases args with
    | nil => exact absurd hs (by simp [passesShape])
    | cons a rest =>
      rcases hp : L.ParseFloat a 32 with e | v
      · exact Or.inl ⟨e, Float32Option_Apply_parse_error L o m a rest hs e hp⟩
      · exact Or.inr ⟨a, rest, v, rfl, hs, hp, Float32Option_Apply_parsed L o m a rest hs v hp⟩
  · exact Or.inl ⟨_, Float32Option_Apply_rejected L o m args hs⟩

theorem Float64Option_Apply_cases (L : FloatLib) (o : Float64Option) (m : Mapping)
    (args : List GoString) :
    (∃ e, o.Apply L m args = ⟨m, 0, some e⟩) ∨
    (∃ a rest v, args = a :: rest ∧ ¬ optionShaped a ∧ L.ParseFloat a 64 = Except.ok v ∧
      o.Apply L m args = ⟨m.set o.Name (Value.float64 (v)), 1, none⟩) := by
  by_cases hs : passesShape args
  · cases args with
    | nil => exact absurd hs (by simp [passesShape])
    | cons a rest =>
      rcases hp : L.ParseFloat a 64 with e | v
      · exact Or.inl ⟨e, Float64Option_Apply_parse_error L o m a rest hs e hp⟩
      · exact Or.inr ⟨a, rest, v, rfl, hs, hp, Float64Option_Apply_parsed L o m a rest hs v hp⟩
  · exact Or.inl ⟨_, Float64Option_Apply_rejected L o m args hs⟩

theorem StringOption_SetDefaultValue_cases (o : StringOption) (m : Mapping) :
    o.SetDefaultValue m = m ∨ ∃ v, o.SetDefaultValue m = m.set o.Name v := by
  unfold StringOption.SetDefaultValue
  split_ifs
  · exact Or.inl rfl
  · exact Or.inr ⟨_, rfl⟩

theorem StringOption_SetDefaultValue_set (o : StringOption) (m : Mapping) (v : Value) :
    (o.SetDefaultValue m).set o.Name v = m.set o.Name v := by
  rcases StringOption_SetDefaultValue_cases o m with h | ⟨d, h⟩
  · rw [h]
  · rw [h, Mapping.set_set]

theorem IntOption_SetDefaultValue_cases (o : IntOption) (m : Mapping) :
    o.SetDefaultValue m = m ∨ ∃ v, o.SetDefaultValue m = m.set o.Name v := by
  unfold IntOption.SetDefaultValue
  split_ifs
  · exact Or.inl rfl
  · exact Or.inr ⟨_, rfl⟩

theorem IntOption_SetDefaultValue_set (o : IntOption) (m : Mapping) (v : Value) :
    (o.SetDefaultValue m).set o.Name v = m.set o.Name v := by
  rcases IntOption_SetDefaultValue_cases o m with h | ⟨d, h⟩
  · rw [h]
  · rw [h, Mapping.set_set]

theorem Int32Option_SetDefaultValue_cases (o : Int32Option) (m : Mapping) :
    o.SetDefaultValue m = m ∨ ∃ v, o.SetDefaultValue m = m.set o.Name v := by
  unfold Int32Option.SetDefaultValue
  split_ifs
  · exact Or.inl rfl
  · exact Or.inr ⟨_, rfl⟩

theorem Int32Option_SetDefaultValue_set (o : Int32Option) (m : Mapping) (v : Value) :
    (o.SetDefaultValue m).set o.Name v = m.set o.Name v := by
  rcases Int32Option_SetDefaultValue_cases o m with h | ⟨d, h⟩
  · rw [h]
  · rw [h, Mapping.set_set]

theorem Int64Option_SetDefaultValue_cases (o : Int64Option) (m : Mapping) :
    o.SetDefaultValue m = m ∨ ∃ v, o.SetDefaultValue m = m.set o.Name v := by
  unfold Int64Option.SetDefaultValue
  split_ifs
  · exact Or.inl rfl
  · exact Or.inr ⟨_, rfl⟩

theorem Int64Option_SetDefaultValue_set (o : Int64Option) (m : Mapping) (v : Value) :
    (o.SetDefaultValue m).set o.Name v = m.set o.Name v := by
  rcases Int64Option_SetDefaultValue_cases o m with h | ⟨d, h⟩
  · rw [h]
  · rw [h, Mapping.set_set]

theorem Float32Option_SetDefaultValue_cases (o : Float32Option) (m : Mapping) :
    o.SetDefaultValue m = m ∨ ∃ v, o.SetDefaultValue m = m.set o.Name v := by
  unfold Float32Option.SetDefaultValue
  split_ifs
  · exact Or.inl rfl
  · exact Or.inr ⟨_, rfl⟩

theorem Float32Option_SetDefaultValue_set (o : Float32Option) (m : Mapping) (v : Value) :
    (o.SetDefaultValue m).set o.Name v = m.set o.Name v := by
  rcases Float32Option_SetDefaultValue_cases o m with h | ⟨d, h⟩
  · rw [h]
  · rw [h, Mapping.set_set]

theorem Float64Option_SetDefaultValue_cases (o : Float64Option) (m : Mapping) :
    o.SetDefaultValue m = m ∨ ∃ v, o.SetDefaultValue m = m.set o.Name v := by
  unfold Float64Option.SetDefaultValue
  split_ifs
  · exact Or.inl rfl
  · exact Or.inr ⟨_, rfl⟩

theorem Float64Option_SetDefaultValue_set (o : Float64Option) (m : Mapping) (v : Value) :
    (o.SetDefaultValue m).set o.Name v = m.set o.Name v := by
  rcases Float64Option_SetDefaultValue_cases o m with h | ⟨d, h⟩
  · rw [h]
  · rw [h, Mapping.set_set]

/-! ## Keywords are never taken for values -/

theorem keyword_optionShaped (A : AnyOption) (k : GoString) (hk : k ∈ A.Keywords) :
    optionShaped k := by
  rw [Keywords_eq] at hk
  rcases List.mem_append.mp hk with h | h
  · by_cases hs : A.Short = []
    · simp [hs] at h
    · simp only [ne_eq, hs, not_false_eq_true, if_true, List.mem_singleton] at h
      rw [h, lit_dash]
      cases hS : A.Short with
      | nil => exact absurd hS hs
      | cons c cs => simp [optionShaped]
  · by_cases hn : A.Name = []
    · simp [hn] at h
    · simp only [ne_eq, hn, not_false_eq_true, if_true, List.mem_singleton] at h
      rw [h]
      have h2 : lit "--" = [45, 45] := by decide
      rw [h2]
      simp [optionShaped]

/-- Claim C11: a keyword of any option is never consumed as a value.  For
every option `A` of any kind and every keyword `k` in `A.Keywords()`, `k` is
option-shaped, and for every value-bearing option `B`, every mapping `m` and
every list `rest`, `B.Apply(m, k, rest...)` returns 0 and the MissingValue
error and leaves `m` unchanged. -/
theorem keyword_never_consumed (A : AnyOption) (k : GoString) (hk : k ∈ A.Keywords)
    (m : Mapping) (rest : List GoString) :
    optionShaped k ∧
    (∀ B : StringOption, B.Apply m (k :: rest) = ⟨m, 0, some (missingValue B.usage)⟩) ∧
    (∀ B : IntOption, B.Apply m (k :: rest) = ⟨m, 0, some (missingValue B.usage)⟩) ∧
    (∀ B : Int32Option, B.Apply m (k :: rest) = ⟨m, 0, some (missingValue B.usage)⟩) ∧
    (∀ B : Int64Option, B.Apply m (k :: rest) = ⟨m, 0, some (missingValue B.usage)⟩) ∧
    (∀ (L : FloatLib) (B : Float32Option),
      B.Apply L m (k :: rest) = ⟨m, 0, some (missingValue B.usage)⟩) ∧
    (∀ (L : FloatLib) (B : Float64Option),
      B.Apply L m (k :: rest) = ⟨m, 0, some (missingValue B.usage)⟩) := by
  have hk2 := keyword_optionShaped A k hk
  have hs : ¬ passesShape (k :: rest) := fun h => h hk2
  exact ⟨hk2, fun B => StringOption_Apply_rejected B m _ hs,
    fun B => IntOption_Apply_rejected B m _ hs, fun B => Int32Option_Apply_rejected B m _ hs,
    fun B => Int64Option_Apply_rejected B m _ hs,
    fun L B => Float32Option_Apply_rejected L B m _ hs,
    fun L B => Float64Option_Apply_rejected L B m _ hs⟩

/-- The keyword `--port` of `IntOption{Name:"port", Short:"p"}` is not taken
as the value of the String option `name`. -/
theorem keyword_never_consumed_witness :
    lit "--port" ∈ (AnyOption.Int ⟨lit "port", lit "p", 0, [], [], []⟩).Keywords ∧
    StringOption.Apply ⟨lit "name", [], [], [], [], []⟩ Mapping.empty [lit "--port", lit "80"] =
      ⟨Mapping.empty, 0, some (missingValue (lit "--name=string"))⟩ :=
  ⟨by decide,
    (keyword_never_consumed (AnyOption.Int ⟨lit "port", lit "p", 0, [], [], []⟩) (lit "--port")
      (by decide) Mapping.empty [lit "80"]).2.1 ⟨lit "name", [], [], [], [], []⟩⟩

/-! ## The consumed count -/

/-- Claim C19: the consumed count never overruns the argument list.  For every
option kind, mapping and argument list, `Apply` returns a count that is 0 or 1
and at most `len(args)`; for the value-bearing kinds the count is 1 if and
only if no error is returned; for Bool it is always 0. -/
theorem Apply_count_bounds (m : Mapping) (args : List GoString) :
    (∀ o : BoolOption, (o.Apply m args).n = 0 ∧ (o.Apply m args).n ≤ args.length) ∧
    (∀ o : StringOption,
      ((o.Apply m args).n = 0 ∨ (o.Apply m args).n = 1) ∧
      (o.Apply m args).n ≤ args.length ∧
      ((o.Apply m args).n = 1 ↔ (o.Apply m args).err = none)) ∧
    (∀ o : IntOption,
      ((o.Apply m args).n = 0 ∨ (o.Apply m args).n = 1) ∧
      (o.Apply m args).n ≤ args.length ∧
      ((o.Apply m args).n = 1 ↔ (o.Apply m args).err = none)) ∧
    (∀ o : Int32Option,
      ((o.Apply m args).n = 0 ∨ (o.Apply m args).n = 1) ∧
      (o.Apply m args).n ≤ args.length ∧
      ((o.Apply m args).n = 1 ↔ (o.Apply m args).err = none)) ∧
    (∀ o : Int64Option,
      ((o.Apply m args).n = 0 ∨ (o.Apply m args).n = 1) ∧
      (o.Apply m args).n ≤ args.length ∧
      ((o.Apply m args).n = 1 ↔ (o.Apply m args).err = none)) ∧
    (∀ (L : FloatLib) (o : Float32Option),
      ((o.Apply L m args).n = 0 ∨ (o.Apply L m args).n = 1) ∧
      (o.Apply L m args).n ≤ args.length ∧
      ((o.Apply L m args).n = 1 ↔ (o.Apply L m args).err = none)) ∧
    (∀ (L : FloatLib) (o : Float64Option),
      ((o.Apply L m args).n = 0 ∨ (o.Apply L m args).n = 1) ∧
      (o.Apply L m args).n ≤ args.length ∧
      ((o.Apply L m args).n = 1 ↔ (o.Apply L m args).err = none)) := by
  refine ⟨fun o => ⟨rfl, by simp [BoolOption.Apply]⟩, ?_, ?_, ?_, ?_, ?_, ?_⟩
  · intro o
    rcases StringOption_Apply_cases o m args with ⟨e, h⟩ | ⟨a, rest, ha, _, h⟩
    · rw [h]; simp
    · rw [h, ha]; simp
  · intro o
    rcases IntOption_Apply_cases o m args with ⟨e, h⟩ | ⟨a, rest, v, ha, _, _, h⟩
    · rw [h]; simp
    · rw [h, ha]; simp
  · intro o
    rcases Int32Option_Apply_cases o m args with ⟨e, h⟩ | ⟨a, rest, v, ha, _, _, h⟩
    · rw [h]; simp
    · rw [h, ha]; simp
  · intro o
    rcases Int64Option_Apply_cases o m args with ⟨e, h⟩ | ⟨a, rest, v, ha, _, _, h⟩
    · rw [h]; simp
    · rw [h, ha]; simp
  · intro L o
    rcases Float32Option_Apply_cases L o m args with ⟨e, h⟩ | ⟨a, rest, v, ha, _, _, h⟩
    · rw [h]; simp
    · rw [h, ha]; simp
  · intro L o
    rcases Float64Option_Apply_cases L o m args with ⟨e, h⟩ | ⟨a, rest, v, ha, _, _, h⟩
    · rw [h]; simp
    · rw [h, ha]; simp

/-! ## Frame -/

/-- Claim C20: for every option kind, every mapping `m` and every argument
list, `SetDefaultValue` and `Apply` leave every key other than the option's
own `Name` as it is in `m` (same presence, same value). -/
theorem frame_other_keys (m : Mapping) (args : List GoString) (k : GoString) :
    (∀ o : BoolOption, k ≠ o.Name →
      o.SetDefaultValue m k = m k ∧ (o.Apply m args).options k = m k) ∧
    (∀ o : StringOption, k ≠ o.Name →
      o.SetDefaultValue m k = m k ∧ (o.Apply m args).options k = m k) ∧
    (∀ o : IntOption, k ≠ o.Name →
      o.SetDefaultValue m k = m k ∧ (o.Apply m args).options k = m k) ∧
    (∀ o : Int32Option, k ≠ o.Name →
      o.SetDefaultValue m k = m k ∧ (o.Apply m args).options k = m k) ∧
    (∀ o : Int64Option, k ≠ o.Name →
      o.SetDefaultValue m k = m k ∧ (o.Apply m args).options k = m k) ∧
    (∀ (L : FloatLib) (o : Float32Option), k ≠ o.Name →
      o.SetDefaultValue m k = m k ∧ (o.Apply L m args).options k = m k) ∧
    (∀ (L : FloatLib) (o : Float64Option), k ≠ o.Name →
      o.SetDefaultValue m k = m k ∧ (o.Apply L m args).options k = m k) := by
  refine ⟨?_, ?_, ?_, ?_, ?_, ?_, ?_⟩
  · intro o hk
    exact ⟨rfl, Mapping.set_other m o.Name k _ hk⟩
  · intro o hk
    constructor
    · rcases StringOption_SetDefaultValue_cases o m with h | ⟨d, h⟩
      · rw [h]
      · rw [h]; exact Mapping.set_other m o.Name k _ hk
    · rcases StringOption_Apply_cases o m args with ⟨e, h⟩ | ⟨a, rest, _, _, h⟩
      · rw [h]
      · rw [h]; exact Mapping.set_other m o.Name k _ hk
  · intro o hk
    constructor
    · rcases IntOption_SetDefaultValue_cases o m with h | ⟨d, h⟩
      · rw [h]
      · rw [h]; exact Mapping.set_other m o.Name k _ hk
    · rcases IntOption_Apply_cases o m args with ⟨e, h⟩ | ⟨a, rest, v, _, _, _, h⟩
      · rw [h]
      · rw [h]; exact Mapping.set_other m o.Name k _ hk
  · intro o hk
    constructor
    · rcases Int32Option_SetDefaultValue_cases o m with h | ⟨d, h⟩
      · rw [h]
      · rw [h]; exact Mapping.set_other m o.Name k _ hk
    · rcases Int32Option_Apply_cases o m args with ⟨e, h⟩ | ⟨a, rest, v, _, _, _, h⟩
      · rw [h]
      · rw [h]; exact Mapping.set_other m o.Name k _ hk
  · intro o hk
    constructor
    · rcases Int64Option_SetDefaultValue_cases o m with h | ⟨d, h⟩
      · rw [h]
      · rw [h]; exact Mapping.set_other m o.Name k _ hk
    · rcases Int64Option_Apply_cases o m args with ⟨e, h⟩ | ⟨a, rest, v, _, _, _, h⟩
      · rw [h]
      · rw [h]; exact Mapping.set_other m o.Name k _ hk
  · intro L o hk
    constructor
    · rcases Float32Option_SetDefaultValue_cases o m with h | ⟨d, h⟩
      · rw [h]
      · rw [h]; exact Mapping.set_other m o.Name k _ hk
    · rcases Float32Option_Apply_cases L o m args with ⟨e, h⟩ | ⟨a, rest, v, _, _, _, h⟩
      · rw [h]
      · rw [h]; exact Mapping.set_other m o.Name k _ hk
  · intro L o hk
    constructor
    · rcases Float64Option_SetDefaultValue_cases o m with h | ⟨d, h⟩
      · rw [h]
      · rw [h]; exact Mapping.set_other m o.Name k _ hk
    · rcases Float64Option_Apply_cases L o m args with ⟨e, h⟩ | ⟨a, rest, v, _, _, _, h⟩
      · rw [h]
      · rw [h]; exact Mapping.set_other m o.Name k _ hk

/-- In a mapping that holds `k = true`, seeding and applying the Int option
`port` (default 8080, argument `80`) leave the key `k` as it was. -/
theorem frame_other_keys_witness :
    lit "k" ≠ lit "port" ∧
    IntOption.SetDefaultValue ⟨lit "port", [], 8080, [], [], []⟩
        (Mapping.empty.set (lit "k") (Value.bool true)) (lit "k") =
      Mapping.empty.set (lit "k") (Value.bool true) (lit "k") ∧
    (IntOption.Apply ⟨lit "port", [], 8080, [], [], []⟩
        (Mapping.empty.set (lit "k") (Value.bool true)) [lit "80"]).options (lit "k") =
      Mapping.empty.set (lit "k") (Value.bool true) (lit "k") :=
  ⟨by decide,
    (frame_other_keys (Mapping.empty.set (lit "k") (Value.bool true)) [lit "80"]
      (lit "k")).2.2.1 ⟨lit "port", [], 8080, [], [], []⟩ (by decide)⟩

/-! ## Defaults and parsed values -/

/-- Claim C16: a parsed value overwrites the seeded default.  For every
value-bearing option, every mapping `m` and every argument list on which
`Apply` succeeds, `SetDefaultValue(m)` followed by `Apply` gives the same
mapping (and the same results) as `Apply` on `m` alone, and the value at
`Name` is the parsed first argument: the token itself for String, the integer
it denotes for the integer kinds, the result of `strconv.ParseFloat` for the
float kinds. -/
theorem parsed_value_overwrites_default (m : Mapping) (args : List GoString) :
    (∀ o : StringOption, (o.Apply m args).err = none →
      o.Apply (o.SetDefaultValue m) args = o.Apply m args ∧
      ∃ a rest, args = a :: rest ∧
        (o.Apply (o.SetDefaultValue m) args).options o.Name = some (Value.string a)) ∧
    (∀ o : IntOption, (o.Apply m args).err = none →
      o.Apply (o.SetDefaultValue m) args = o.Apply m args ∧
      ∃ a rest, args = a :: rest ∧
        (o.Apply (o.SetDefaultValue m) args).options o.Name =
          some (Value.int (literalValue a))) ∧
    (∀ o : Int32Option, (o.Apply m args).err = none →
      o.Apply (o.SetDefaultValue m) args = o.Apply m args ∧
      ∃ a rest, args = a :: rest ∧
        (o.Apply (o.SetDefaultValue m) args).options o.Name =
          some (Value.int32 (literalValue a))) ∧
    (∀ o : Int64Option, (o.Apply m args).err = none →
      o.Apply (o.SetDefaultValue m) args = o.Apply m args ∧
      ∃ a rest, args = a :: rest ∧
        (o.Apply (o.SetDefaultValue m) args).options o.Name =
          some (Value.int64 (literalValue a))) ∧
    (∀ (L : FloatLib) (o : Float32Option), (o.Apply L m args).err = none →
      o.Apply L (o.SetDefaultValue m) args = o.Apply L m args ∧
      ∃ a rest v, args = a :: rest ∧ L.ParseFloat a 32 = Except.ok v ∧
        (o.Apply L (o.SetDefaultValue m) args).options o.Name =
          some (Value.float32 (L.toFloat32 v))) ∧
    (∀ (L : FloatLib) (o : Float64Option), (o.Apply L m args).err = none →
      o.Apply L (o.SetDefaultValue m) args = o.Apply L m args ∧
      ∃ a rest v, args = a :: rest ∧ L.ParseFloat a 64 = Except.ok v ∧
        (o.Apply L (o.SetDefaultValue m) args).options o.Name = some (Value.float64 v)) := by
  refine ⟨?_, ?_, ?_, ?_, ?_, ?_⟩
  · intro o hok
    rcases StringOption_Apply_cases o m args with ⟨e, h⟩ | ⟨a, rest, ha, hs, h⟩
    · rw [h] at hok; exact absurd hok (by simp)
    · subst ha
      have h2 := StringOption_Apply_stored o (o.SetDefaultValue m) a rest hs
      rw [StringOption_SetDefaultValue_set] at h2
      rw [h2, h]
      exact ⟨rfl, a, rest, rfl, Mapping.set_same _ _ _⟩
  · intro o hok
    rcases IntOption_Apply_cases o m args with ⟨e, h⟩ | ⟨a, rest, v, ha, hs, hp, h⟩
    · rw [h] at hok; exact absurd hok (by simp)
    · subst ha
      have h2 := IntOption_Apply_parsed o (o.SetDefaultValue m) a rest hs v hp
      rw [IntOption_SetDefaultValue_set] at h2
      obtain ⟨_, hf, hv⟩ := ParseInt_ok a 64 (Or.inr rfl) v hp
      rw [h2, h]
      refine ⟨rfl, a, rest, rfl, ?_⟩
      dsimp only
      rw [Mapping.set_same, toInt, hv, wrap_of_fits64 _ hf]
  · intro o hok
    rcases Int32Option_Apply_cases o m args with ⟨e, h⟩ | ⟨a, rest, v, ha, hs, hp, h⟩
    · rw [h] at hok; exact absurd hok (by simp)
    · subst ha
      have h2 := Int32Option_Apply_parsed o (o.SetDefaultValue m) a rest hs v hp
      rw [Int32Option_SetDefaultValue_set] at h2
      obtain ⟨_, hf, hv⟩ := ParseInt_ok a 32 (Or.inl rfl) v hp
      rw [h2, h]
      refine ⟨rfl, a, rest, rfl, ?_⟩
      dsimp only
      rw [Mapping.set_same, toInt32, hv, wrap_of_fits32 _ hf]
  · intro o hok
    rcases Int64Option_Apply_cases o m args with ⟨e, h⟩ | ⟨a, rest, v, ha, hs, hp, h⟩
    · rw [h] at hok; exact absurd hok (by simp)
    · subst ha
      have h2 := Int64Option_Apply_parsed o (o.SetDefaultValue m) a rest hs v hp
      rw [Int64Option_SetDefaultValue_set] at h2
      obtain ⟨_, hf, hv⟩ := ParseInt_ok a 64 (Or.inr rfl) v hp
      rw [h2, h]
      refine ⟨rfl, a, rest, rfl, ?_⟩
      dsimp only
      rw [Mapping.set_same, hv]
  · intro L o hok
    rcases Float32Option_Apply_cases L o m args with ⟨e, h⟩ | ⟨a, rest, v, ha, hs, hp, h⟩
    · rw [h] at hok; exact absurd hok (by simp)
    · subst ha
      have h2 := Float32Option_Apply_parsed L o (o.SetDefaultValue m) a rest hs v hp
      rw [Float32Option_SetDefaultValue_set] at h2
      rw [h2, h]
      exact ⟨rfl, a, rest, v, rfl, hp, Mapping.set_same _ _ _⟩
  · intro L o hok
    rcases Float64Option_Apply_cases L o m args with ⟨e, h⟩ | ⟨a, rest, v, ha, hs, hp, h⟩
    · rw [h] at hok; exact absurd hok (by simp)
    · subst ha
      have h2 := Float64Option_Apply_parsed L o (o.SetDefaultValue m) a rest hs v hp
      rw [Float64Option_SetDefaultValue_set] at h2
      rw [h2, h]
      exact ⟨rfl, a, rest, v, rfl, hp, Mapping.set_same _ _ _⟩

/-- The declaration `IntOption{Name:"port", DefaultValue:8080}` seeded into
the empty mapping and then applied to `["80"]` leaves what applying alone
leaves, and `port` holds an integer parsed from the first argument. -/
theorem parsed_value_overwrites_default_witness :
    (IntOption.Apply ⟨lit "port", [], 8080, [], [], []⟩ Mapping.empty [lit "80"]).err = none ∧
    (IntOption.Apply ⟨lit "port", [], 8080, [], [], []⟩
        (IntOption.SetDefaultValue ⟨lit "port", [], 8080, [], [], []⟩ Mapping.empty)
        [lit "80"] =
      IntOption.Apply ⟨lit "port", [], 8080, [], [], []⟩ Mapping.empty [lit "80"] ∧
    ∃ a rest, [lit "80"] = a :: rest ∧
      (IntOption.Apply ⟨lit "port", [], 8080, [], [], []⟩
        (IntOption.SetDefaultValue ⟨lit "port", [], 8080, [], [], []⟩ Mapping.empty)
        [lit "80"]).options (lit "port") = some (Value.int (literalValue a))) :=
  ⟨by decide,
    (parsed_value_overwrites_default Mapping.empty [lit "80"]).2.1
      ⟨lit "port", [], 8080, [], [], []⟩ (by decide)⟩

/-! ## The range of a stored integer -/

/-- Claim C18: every integer stored by a successful `Apply` is non-negative
and within the kind's width.  If `Apply` of an Int32 option succeeds, the
value `v` stored under `Name` satisfies `0 ≤ v ≤ 2^31 - 1`; for an Int64
option and for an Int option (taken as 64-bit) `0 ≤ v ≤ 2^63 - 1`.  An Int32
option rejects the token `2147483648` with the range error of
`strconv.ParseInt`, an Int64 option stores 2147483648. -/
theorem stored_integer_range (m : Mapping) (args : List GoString) :
    (∀ o : Int32Option, (o.Apply m args).err = none →
      ∃ v, (o.Apply m args).options o.Name = some (Value.int32 v) ∧ 0 ≤ v ∧ v ≤ 2 ^ 31 - 1) ∧
    (∀ o : Int64Option, (o.Apply m args).err = none →
      ∃ v, (o.Apply m args).options o.Name = some (Value.int64 v) ∧ 0 ≤ v ∧ v ≤ 2 ^ 63 - 1) ∧
    (∀ o : IntOption, (o.Apply m args).err = none →
      ∃ v, (o.Apply m args).options o.Name = some (Value.int v) ∧ 0 ≤ v ∧ v ≤ 2 ^ 63 - 1) ∧
    (∀ (o : Int32Option) (rest : List GoString),
      o.Apply m (lit "2147483648" :: rest) =
        ⟨m, 0, some (GoError.NumError (lit "ParseInt") (lit "2147483648") NumErr.ErrRange)⟩) ∧
    (∀ (o : Int64Option) (rest : List GoString),
      o.Apply m (lit "2147483648" :: rest) =
        ⟨m.set o.Name (Value.int64 2147483648), 1, none⟩) := by
  refine ⟨?_, ?_, ?_, ?_, ?_⟩
  · intro o hok
    rcases Int32Option_Apply_cases o m args with ⟨e, h⟩ | ⟨a, rest, v, ha, hs, hp, h⟩
    · rw [h] at hok; exact absurd hok (by simp)
    · obtain ⟨hl, hf, hv⟩ := ParseInt_ok a 32 (Or.inl rfl) v hp
      have h0 := literalValue_nonneg a hs hl
      rw [h]
      refine ⟨literalValue a, ?_, h0, ?_⟩
      · dsimp only
        rw [Mapping.set_same, toInt32, hv, wrap_of_fits32 _ hf]
      · unfold fitsWidth at hf
        norm_num at hf ⊢
        exact hf.2
  · intro o hok
    rcases Int64Option_Apply_cases o m args with ⟨e, h⟩ | ⟨a, rest, v, ha, hs, hp, h⟩
    · rw [h] at hok; exact absurd hok (by simp)
    · obtain ⟨hl, hf, hv⟩ := ParseInt_ok a 64 (Or.inr rfl) v hp
      have h0 := literalValue_nonneg a hs hl
      rw [h]
      refine ⟨literalValue a, ?_, h0, ?_⟩
      · dsimp only
        rw [Mapping.set_same, hv]
      · unfold fitsWidth at hf
        norm_num at hf ⊢
        exact hf.2
  · intro o hok
    rcases IntOption_Apply_cases o m args with ⟨e, h⟩ | ⟨a, rest, v, ha, hs, hp, h⟩
    · rw [h] at hok; exact absurd hok (by simp)
    · obtain ⟨hl, hf, hv⟩ := ParseInt_ok a 64 (Or.inr rfl) v hp
      have h0 := literalValue_nonneg a hs hl
      rw [h]
      refine ⟨literalValue a, ?_, h0, ?_⟩
      · dsimp only
        rw [Mapping.set_same, toInt, hv, wrap_of_fits64 _ hf]
      · unfold fitsWidth at hf
        norm_num at hf ⊢
        exact hf.2
  · intro o rest
    exact Int32Option_Apply_parse_error o m _ rest (by decide) 2147483647 _ (by decide)
  · intro o rest
    exact Int64Option_Apply_parsed o m _ rest (by decide) 2147483648 (by decide)

/-- The Int32 option `n` applied to `["2147483647"]` stores a value between 0
and `2^31 - 1`. -/
theorem stored_integer_range_witness :
    (Int32Option.Apply ⟨lit "n", [], 0, [], [], []⟩ Mapping.empty [lit "2147483647"]).err = none ∧
    ∃ v, (Int32Option.Apply ⟨lit "n", [], 0, [], [], []⟩ Mapping.empty
        [lit "2147483647"]).options (lit "n") = some (Value.int32 v) ∧ 0 ≤ v ∧ v ≤ 2 ^ 31 - 1 :=
  ⟨by decide,
    (stored_integer_range Mapping.empty [lit "2147483647"]).1
      ⟨lit "n", [], 0, [], [], []⟩ (by decide)⟩

/-! ## The one-character token `-` -/

/-- Claim C15, refuted as stated: the Int option `n` applied to `["-"]` does
not succeed.  `strconv.ParseInt` reports a syntax error, nothing is consumed
and nothing is stored under `n`. -/
theorem dash_rejected_by_IntOption :
    (IntOption.Apply ⟨lit "n", [], 0, [], [], []⟩ Mapping.empty [lit "-"]).err =
      some (GoError.NumError (lit "ParseInt") (lit "-") NumErr.ErrSyntax) ∧
    (IntOption.Apply ⟨lit "n", [], 0, [], [], []⟩ Mapping.empty [lit "-"]).n = 0 ∧
    (IntOption.Apply ⟨lit "n", [], 0, [], [], []⟩ Mapping.empty [lit "-"]).options (lit "n") =
      none := by
  decide

/-- Claim C15, amended: the one-character token `-` passes the shape check of
every value-bearing kind, and what follows is the kind's own parse.  A String
option stores `-` under `Name` and consumes 1.  An Int, Int32 or Int64 option
returns the syntax error of `strconv.ParseInt` (not MissingValue), consumes 0
and leaves the mapping unchanged.  A Float32 or Float64 option returns what
`strconv.ParseFloat` makes of `-`: its error with 0 consumed and the mapping
unchanged, or its value stored under `Name` with 1 consumed. -/
theorem dash_token_outcome (m : Mapping) (rest : List GoString) :
    ¬ optionShaped (lit "-") ∧
    (∀ o : StringOption,
      o.Apply m (lit "-" :: rest) = ⟨m.set o.Name (Value.string (lit "-")), 1, none⟩) ∧
    (∀ o : IntOption,
      o.Apply m (lit "-" :: rest) =
        ⟨m, 0, some (GoError.NumError (lit "ParseInt") (lit "-") NumErr.ErrSyntax)⟩) ∧
    (∀ o : Int32Option,
      o.Apply m (lit "-" :: rest) =
        ⟨m, 0, some (GoError.NumError (lit "ParseInt") (lit "-") NumErr.ErrSyntax)⟩) ∧
    (∀ o : Int64Option,
      o.Apply m (lit "-" :: rest) =
        ⟨m, 0, some (GoError.NumError (lit "ParseInt") (lit "-") NumErr.ErrSyntax)⟩) ∧
    (∀ (L : FloatLib) (o : Float32Option),
      o.Apply L m (lit "-" :: rest) =
        match L.ParseFloat (lit "-") 32 with
        | Except.error e => ⟨m, 0, some e⟩
        | Except.ok v => ⟨m.set o.Name (Value.float32 (L.toFloat32 v)), 1, none⟩) ∧
    (∀ (L : FloatLib) (o : Float64Option),
      o.Apply L m (lit "-" :: rest) =
        match L.ParseFloat (lit "-") 64 with
        | Except.error e => ⟨m, 0, some e⟩
        | Except.ok v => ⟨m.set o.Name (Value.float64 v), 1, none⟩) := by
  have hs : ¬ optionShaped (lit "-") := by decide
  refine ⟨hs, ?_, ?_, ?_, ?_, ?_, ?_⟩
  · intro o; exact StringOption_Apply_stored o m _ rest hs
  · intro o; exact IntOption_Apply_parse_error o m _ rest hs 0 _ (by decide)
  · intro o; exact Int32Option_Apply_parse_error o m _ rest hs 0 _ (by decide)
  · intro o; exact Int64Option_Apply_parse_error o m _ rest hs 0 _ (by decide)
  · intro L o
    rcases hp : L.ParseFloat (lit "-") 32 with e | v
    · exact Float32Option_Apply_parse_error L o m _ rest hs e hp
    · exact Float32Option_Apply_parsed L o m _ rest hs v hp
  · intro L o
    rcases hp : L.ParseFloat (lit "-") 64 with e | v
    · exact Float64Option_Apply_parse_error L o m _ rest hs e hp
    · exact Float64Option_Apply_parsed L o m _ rest hs v hp

/-! ## One usage formatter -/

/-- Claim C17: the per-variant usage formatters are one formatter.  There is a
single function `f(Short, Name, Usage, ArgUsage, placeholder)` such that the
usage returned by `Help()` is `f(..., "string")` for String and
`f(..., "number")` for Int, Int32, Int64, Float32 and Float64.  Hence the
numeric kinds return the same usage for the same `Short`, `Name`, `Usage` and
`ArgUsage`, and a String option returns the same usage as a numeric one with
the same four fields whenever `ArgUsage` is non-empty or `Usage` is non-empty
or `Name` is empty. -/
theorem usage_one_formatter :
    (∃ f : GoString → GoString → GoString → GoString → GoString → GoString,
      (∀ o : StringOption, o.Help.1 = f o.Short o.Name o.Usage o.ArgUsage (lit "string")) ∧
      (∀ o : IntOption, o.Help.1 = f o.Short o.Name o.Usage o.ArgUsage (lit "number")) ∧
      (∀ o : Int32Option, o.Help.1 = f o.Short o.Name o.Usage o.ArgUsage (lit "number")) ∧
      (∀ o : Int64Option, o.Help.1 = f o.Short o.Name o.Usage o.ArgUsage (lit "number")) ∧
      (∀ (L : FloatLib) (o : Float32Option),
        (o.Help L).1 = f o.Short o.Name o.Usage o.ArgUsage (lit "number")) ∧
      (∀ (L : FloatLib) (o : Float64Option),
        (o.Help L).1 = f o.Short o.Name o.Usage o.ArgUsage (lit "number"))) ∧
    (∀ (L : FloatLib) (a : IntOption) (b : Int32Option) (c : Int64Option) (d : Float32Option)
        (e : Float64Option),
      (b.Short = a.Short ∧ b.Name = a.Name ∧ b.Usage = a.Usage ∧ b.ArgUsage = a.ArgUsage) →
      (c.Short = a.Short ∧ c.Name = a.Name ∧ c.Usage = a.Usage ∧ c.ArgUsage = a.ArgUsage) →
      (d.Short = a.Short ∧ d.Name = a.Name ∧ d.Usage = a.Usage ∧ d.ArgUsage = a.ArgUsage) →
      (e.Short = a.Short ∧ e.Name = a.Name ∧ e.Usage = a.Usage ∧ e.ArgUsage = a.ArgUsage) →
      b.Help.1 = a.Help.1 ∧ c.Help.1 = a.Help.1 ∧ (d.Help L).1 = a.Help.1 ∧
        (e.Help L).1 = a.Help.1) ∧
    (∀ (s : StringOption) (a : IntOption),
      (s.Short = a.Short ∧ s.Name = a.Name ∧ s.Usage = a.Usage ∧ s.ArgUsage = a.ArgUsage) →
      (a.ArgUsage ≠ [] ∨ a.Usage ≠ [] ∨ a.Name = []) →
      s.Help.1 = a.Help.1) := by
  have hS : ∀ o : StringOption,
      o.Help.1 = usageSpec (lit "string") o.Short o.Name o.Usage o.ArgUsage :=
    fun o => usage_eq_usageSpec _ o.Short o.Name o.Usage o.ArgUsage
  have hI : ∀ o : IntOption,
      o.Help.1 = usageSpec (lit "number") o.Short o.Name o.Usage o.ArgUsage :=
    fun o => usage_eq_usageSpec _ o.Short o.Name o.Usage o.ArgUsage
  have hI32 : ∀ o : Int32Option,
      o.Help.1 = usageSpec (lit "number") o.Short o.Name o.Usage o.ArgUsage :=
    fun o => usage_eq_usageSpec _ o.Short o.Name o.Usage o.ArgUsage
  have hI64 : ∀ o : Int64Option,
      o.Help.1 = usageSpec (lit "number") o.Short o.Name o.Usage o.ArgUsage :=
    fun o => usage_eq_usageSpec _ o.Short o.Name o.Usage o.ArgUsage
  have hF32 : ∀ (L : FloatLib) (o : Float32Option),
      (o.Help L).1 = usageSpec (lit "number") o.Short o.Name o.Usage o.ArgUsage :=
    fun _ o => usage_eq_usageSpec _ o.Short o.Name o.Usage o.ArgUsage
  have hF64 : ∀ (L : FloatLib) (o : Float64Option),
      (o.Help L).1 = usageSpec (lit "number") o.Short o.Name o.Usage o.ArgUsage :=
    fun _ o => usage_eq_usageSpec _ o.Short o.Name o.Usage o.ArgUsage
  refine ⟨⟨fun S N U A w => usageSpec w S N U A, hS, hI, hI32, hI64, hF32, hF64⟩, ?_, ?_⟩
  · intro L a b c d e hb hc hd he
    rw [hI, hI32, hI64, hF32, hF64, hb.1, hb.2.1, hb.2.2.1, hb.2.2.2, hc.1, hc.2.1, hc.2.2.1,
      hc.2.2.2, hd.1, hd.2.1, hd.2.2.1, hd.2.2.2, he.1, he.2.1, he.2.2.1, he.2.2.2]
    exact ⟨rfl, rfl, rfl, rfl⟩
  · intro s a hs hcase
    rw [hS, hI, hs.1, hs.2.1, hs.2.2.1, hs.2.2.2]
    unfold usageSpec
    rcases hcase with h | h | h
    · simp [h]
    · simp [h]
    · simp [h]

/-- The String option and the Int option with `Name:"port"`, `Short:"p"` and
`ArgUsage:"PORT"` both have the usage `-p,--port=PORT`. -/
theorem usage_one_formatter_witness :
    (StringOption.Help ⟨lit "port", lit "p", [], [], [], lit "PORT"⟩).1 =
      (IntOption.Help ⟨lit "port", lit "p", 0, [], [], lit "PORT"⟩).1 ∧
    (IntOption.Help ⟨lit "port", lit "p", 0, [], [], lit "PORT"⟩).1 = lit "-p,--port=PORT" :=
  ⟨usage_one_formatter.2.2 ⟨lit "port", lit "p", [], [], [], lit "PORT"⟩
      ⟨lit "port", lit "p", 0, [], [], lit "PORT"⟩ ⟨rfl, rfl, rfl, rfl⟩ (Or.inl (by decide)),
    by decide⟩

/-! ## The decimal rendering of an integer -/

theorem decValue_append (n : Nat) (xs ys : List UInt8) :
    decValue n (xs ++ ys) = decValue (decValue n xs) ys := by
  simp [decValue, List.foldl_append]

theorem decValue_single (n : Nat) (c : UInt8) : decValue n [c] = n * 10 + (c.toNat - 48) := rfl

theorem digitChar_byte (k : Nat) (hk : k < 10) :
    (UInt8.ofNat (Nat.digitChar k).toNat).toNat = 48 + k := by
  interval_cases k <;> rfl

theorem toDigitsCore_spec (fuel : Nat) : ∀ (n : Nat) (ds : List Char), n < fuel →
    ∃ pre : List Char, Nat.toDigitsCore 10 fuel n ds = pre ++ ds ∧ pre ≠ [] ∧
      (∀ c ∈ pre.map (fun c => UInt8.ofNat c.toNat), isDigit c) ∧
      decValue 0 (pre.map (fun c => UInt8.ofNat c.toNat)) = n := by
  induction fuel with
  | zero => intro n ds h; exact absurd h (Nat.not_lt_zero n)
  | succ fuel ih =>
    intro n ds hn
    have hd := digitChar_byte (n % 10) (Nat.mod_lt n (by decide))
    by_cases h0 : n / 10 = 0
    · refine ⟨[Nat.digitChar (n % 10)], ?_, by simp, ?_, ?_⟩
      · simp [Nat.toDigitsCore, h0]
      · intro c hc
        simp only [List.map_cons, List.map_nil, List.mem_singleton] at hc
        rw [hc]
        unfold isDigit
        omega
      · simp only [List.map_cons, List.map_nil, decValue_single]
        omega
    · obtain ⟨pre, hpre, _, hdig, hval⟩ := ih (n / 10) (Nat.digitChar (n % 10) :: ds) (by omega)
      refine ⟨pre ++ [Nat.digitChar (n % 10)], ?_, by simp, ?_, ?_⟩
      · simp [Nat.toDigitsCore, h0, hpre]
      · intro c hc
        simp only [List.map_append, List.map_cons, List.map_nil, List.mem_append,
          List.mem_singleton] at hc
        rcases hc with hc | hc
        · exact hdig c hc
        · rw [hc]
          unfold isDigit
          omega
      · rw [List.map_append, decValue_append, hval]
        simp only [List.map_cons, List.map_nil, decValue_single]
        omega

theorem formatBits_spec (u : Nat) :
    strconv.formatBits u ≠ [] ∧ (∀ c ∈ strconv.formatBits u, isDigit c) ∧
      decValue 0 (strconv.formatBits u) = u := by
  obtain ⟨pre, hpre, hne, hdig, hval⟩ := toDigitsCore_spec (u + 1) u [] (Nat.lt_succ_self u)
  have h : strconv.formatBits u = pre.map (fun c => UInt8.ofNat c.toNat) := by
    unfold strconv.formatBits Nat.toDigits
    rw [hpre, List.append_nil]
  rw [h]
  exact ⟨by simpa using hne, hdig, hval⟩

theorem formatBits_literal (u : Nat) :
    ¬ optionShaped (strconv.formatBits u) ∧ isIntLiteral (strconv.formatBits u) ∧
      literalValue (strconv.formatBits u) = u := by
  obtain ⟨hne, hdig, hval⟩ := formatBits_spec u
  cases hf : strconv.formatBits u with
  | nil => exact absurd hf hne
  | cons c rest =>
    rw [hf] at hdig hval
    have hc : isDigit c := hdig c (List.mem_cons_self c rest)
    unfold isDigit at hc
    have h43 : c ≠ 43 := by
      intro h; rw [h] at hc; revert hc; decide
    have h45 : c ≠ 45 := by
      intro h; rw [h] at hc; revert hc; decide
    refine ⟨?_, ?_, ?_⟩
    · simp [optionShaped, h45]
    · simp only [isIntLiteral, h43, h45, or_self, if_false]
      exact hdig
    · simp only [literalValue, h43, h45, if_false]
      rw [hval]

theorem FormatInt_negative (n : Int) (hn : n < 0) : optionShaped (strconv.FormatInt n) := by
  obtain ⟨hne, _, _⟩ := formatBits_spec (-n).toNat
  unfold strconv.FormatInt
  rw [if_pos hn, lit_dash]
  cases hf : strconv.formatBits (-n).toNat with
  | nil => exact absurd hf hne
  | cons c rest => simp [optionShaped]

theorem FormatInt_nonneg (n : Int) (hn : 0 ≤ n) :
    ¬ optionShaped (strconv.FormatInt n) ∧ isIntLiteral (strconv.FormatInt n) ∧
      literalValue (strconv.FormatInt n) = n := by
  have h : strconv.FormatInt n = strconv.formatBits n.toNat := by
    unfold strconv.FormatInt
    rw [if_neg (by omega)]
  rw [h]
  obtain ⟨h1, h2, h3⟩ := formatBits_literal n.toNat
  exact ⟨h1, h2, by rw [h3]; exact Int.toNat_of_nonneg hn⟩

/-- Claim C12: for every Int, Int32 and Int64 option and every negative
integer `n`, `Apply` whose first remaining argument is the base-10 rendering
of `n` (for example `-5`) fails with the MissingValue error, which is not a
parse error, consumes 0 and leaves the mapping as it was: the rendering is
option-shaped. -/
theorem negative_number_rejected (n : Int) (hn : n < 0) (m : Mapping) (rest : List GoString) :
    optionShaped (strconv.FormatInt n) ∧
    (∀ o : IntOption,
      o.Apply m (strconv.FormatInt n :: rest) = ⟨m, 0, some (missingValue o.usage)⟩) ∧
    (∀ o : Int32Option,
      o.Apply m (strconv.FormatInt n :: rest) = ⟨m, 0, some (missingValue o.usage)⟩) ∧
    (∀ o : Int64Option,
      o.Apply m (strconv.FormatInt n :: rest) = ⟨m, 0, some (missingValue o.usage)⟩) ∧
    (∀ u fn num k, missingValue u ≠ GoError.NumError fn num k) := by
  have hshape := FormatInt_negative n hn
  have hs : ¬ passesShape (strconv.FormatInt n :: rest) := fun h => h hshape
  exact ⟨hshape, fun o => IntOption_Apply_rejected o m _ hs,
    fun o => Int32Option_Apply_rejected o m _ hs, fun o => Int64Option_Apply_rejected o m _ hs,
    fun u fn num k e => by simp [missingValue, errors.New] at e⟩

/-- The number -5 renders as `-5`, and the declaration
`IntOption{Name:"port", Short:"p"}` applied to it reports a missing value. -/
theorem negative_number_rejected_witness :
    (-5 : Int) < 0 ∧ strconv.FormatInt (-5) = lit "-5" ∧
    IntOption.Apply ⟨lit "port", lit "p", 0, [], [], []⟩ Mapping.empty [strconv.FormatInt (-5)] =
      ⟨Mapping.empty, 0, some (missingValue (lit "-p,--port=number"))⟩ :=
  ⟨by decide, by decide,
    (negative_number_rejected (-5) (by decide) Mapping.empty []).2.1
      ⟨lit "port", lit "p", 0, [], [], []⟩⟩

/-- Claim C13: round trip.  For every integer kind and every integer `n` with
`0 ≤ n` and `n` at most the maximum of the kind's width, `Apply` whose first
remaining argument is `strconv.FormatInt(n, 10)`, the rendering `Help()` uses
for defaults, succeeds, consumes 1 and stores exactly `n` under `Name`; a
String option applied to the same token stores the token itself. -/
theorem integer_round_trip (n : Int) (hn : 0 ≤ n) (m : Mapping) (rest : List GoString) :
    (∀ o : IntOption, n ≤ 2 ^ 63 - 1 →
      o.Apply m (strconv.FormatInt n :: rest) = ⟨m.set o.Name (Value.int n), 1, none⟩) ∧
    (∀ o : Int32Option, n ≤ 2 ^ 31 - 1 →
      o.Apply m (strconv.FormatInt n :: rest) = ⟨m.set o.Name (Value.int32 n), 1, none⟩) ∧
    (∀ o : Int64Option, n ≤ 2 ^ 63 - 1 →
      o.Apply m (strconv.FormatInt n :: rest) = ⟨m.set o.Name (Value.int64 n), 1, none⟩) ∧
    (∀ o : StringOption,
      o.Apply m (strconv.FormatInt n :: rest) =
        ⟨m.set o.Name (Value.string (strconv.FormatInt n)), 1, none⟩) := by
  obtain ⟨hs, hl, hv⟩ := FormatInt_nonneg n hn
  have hfit64 : n ≤ 2 ^ 63 - 1 → fitsWidth 64 (literalValue (strconv.FormatInt n)) := by
    intro h
    rw [hv]
    unfold fitsWidth
    norm_num at h ⊢
    omega
  have hfit32 : n ≤ 2 ^ 31 - 1 → fitsWidth 32 (literalValue (strconv.FormatInt n)) := by
    intro h
    rw [hv]
    unfold fitsWidth
    norm_num at h ⊢
    omega
  refine ⟨?_, ?_, ?_, ?_⟩
  · intro o h
    have hp := (ParseInt_spec (strconv.FormatInt n) 64 (Or.inr rfl)).1 ⟨hl, hfit64 h⟩
    rw [IntOption_Apply_parsed o m _ rest hs _ hp, toInt, wrap_of_fits64 _ (hfit64 h), hv]
  · intro o h
    have hp := (ParseInt_spec (strconv.FormatInt n) 32 (Or.inl rfl)).1 ⟨hl, hfit32 h⟩
    rw [Int32Option_Apply_parsed o m _ rest hs _ hp, toInt32, wrap_of_fits32 _ (hfit32 h), hv]
  · intro o h
    have hp := (ParseInt_spec (strconv.FormatInt n) 64 (Or.inr rfl)).1 ⟨hl, hfit64 h⟩
    rw [Int64Option_Apply_parsed o m _ rest hs _ hp, hv]
  · intro o
    exact StringOption_Apply_stored o m _ rest hs

/-- The number 8080 renders as `8080`; the Int option `port` applied to that
token stores the integer 8080, the String option `port` stores the string
`8080`. -/
theorem integer_round_trip_witness :
    (0 : Int) ≤ 8080 ∧ strconv.FormatInt 8080 = lit "8080" ∧
    IntOption.Apply ⟨lit "port", [], 0, [], [], []⟩ Mapping.empty [strconv.FormatInt 8080] =
      ⟨Mapping.empty.set (lit "port") (Value.int 8080), 1, none⟩ ∧
    StringOption.Apply ⟨lit "port", [], [], [], [], []⟩ Mapping.empty
        [strconv.FormatInt 8080] =
      ⟨Mapping.empty.set (lit "port") (Value.string (strconv.FormatInt 8080)), 1, none⟩ :=
  ⟨by decide, by decide,
    (integer_round_trip 8080 (by decide) Mapping.empty []).1
      ⟨lit "port", [], 0, [], [], []⟩ (by decide),
    (integer_round_trip 8080 (by decide) Mapping.empty []).2.2.2
      ⟨lit "port", [], [], [], [], []⟩⟩

/-! ## Default seeding -/

theorem SetDefaultValue_eq (o : AnyOption) (m : Mapping) :
    o.SetDefaultValue m =
      match o.nonZeroDefault with
      | none => m
      | some v => m.set o.Name v := by
  cases o with
  | Bool o => rfl
  | String o =>
    by_cases h : o.DefaultValue = [] <;>
      simp [AnyOption.SetDefaultValue, AnyOption.nonZeroDefault, AnyOption.Name,
        StringOption.SetDefaultValue, h]
  | Int o =>
    by_cases h : o.DefaultValue = 0 <;>
      simp [AnyOption.SetDefaultValue, AnyOption.nonZeroDefault, AnyOption.Name,
        IntOption.SetDefaultValue, h]
  | Int32 o =>
    by_cases h : o.DefaultValue = 0 <;>
      simp [AnyOption.SetDefaultValue, AnyOption.nonZeroDefault, AnyOption.Name,
        Int32Option.SetDefaultValue, h]
  | Int64 o =>
    by_cases h : o.DefaultValue = 0 <;>
      simp [AnyOption.SetDefaultValue, AnyOption.nonZeroDefault, AnyOption.Name,
        Int64Option.SetDefaultValue, h]
  | Float32 o =>
    cases h : o.DefaultValue.eqZero <;>
      simp [AnyOption.SetDefaultValue, AnyOption.nonZeroDefault, AnyOption.Name,
        Float32Option.SetDefaultValue, h]
  | Float64 o =>
    cases h : o.DefaultValue.eqZero <;>
      simp [AnyOption.SetDefaultValue, AnyOption.nonZeroDefault, AnyOption.Name,
        Float64Option.SetDefaultValue, h]

theorem SetDefaultValue_own (o : AnyOption) (m : Mapping) :
    o.SetDefaultValue m o.Name =
      match o.nonZeroDefault with
      | none => m o.Name
      | some v => some v := by
  rw [SetDefaultValue_eq]
  cases o.nonZeroDefault with
  | none => rfl
  | some v => exact Mapping.set_same m o.Name v

theorem SetDefaultValue_other (o : AnyOption) (m : Mapping) (k : GoString) (hk : o.Name ≠ k) :
    o.SetDefaultValue m k = m k := by
  rw [SetDefaultValue_eq]
  cases o.nonZeroDefault with
  | none => rfl
  | some v => exact Mapping.set_other m o.Name k v (fun h => hk h.symm)

theorem seedDefaults_cons (p : AnyOption) (ps : List AnyOption) (m : Mapping) :
    seedDefaults (p :: ps) m = seedDefaults ps (p.SetDefaultValue m) := rfl

theorem seedDefaults_other (opts : List AnyOption) (k : GoString) :
    ∀ m : Mapping, (∀ o ∈ opts, o.Name ≠ k) → seedDefaults opts m k = m k := by
  induction opts with
  | nil => intro m _; rfl
  | cons p ps ih =>
    intro m h
    rw [seedDefaults_cons, ih _ (fun o ho => h o (List.mem_cons_of_mem p ho))]
    exact SetDefaultValue_other p m k (h p (List.mem_cons_self p ps))

theorem seedDefaults_own (opts : List AnyOption) :
    ∀ m : Mapping, (opts.map AnyOption.Name).Nodup → ∀ o ∈ opts,
      seedDefaults opts m o.Name =
        match o.nonZeroDefault with
        | none => m o.Name
        | some v => some v := by
  induction opts with
  | nil => intro m _ o ho; exact absurd ho (List.not_mem_nil o)
  | cons p ps ih =>
    intro m hnd o ho
    rw [List.map_cons, List.nodup_cons] at hnd
    rw [seedDefaults_cons]
    rcases List.mem_cons.mp ho with rfl | hps
    · rw [seedDefaults_other ps o.Name _ (fun q hq hqn =>
        hnd.1 (List.mem_map.mpr ⟨q, hq, hqn⟩))]
      exact SetDefaultValue_own o m
    · have hne : p.Name ≠ o.Name := fun h =>
        hnd.1 (List.mem_map.mpr ⟨o, hps, h.symm⟩)
      rw [ih (p.SetDefaultValue m) hnd.2 o hps, SetDefaultValue_other p m o.Name hne]

/-- Claim C14: default-seeding invariant.  For every list of option
declarations with pairwise distinct `Name`s, after `SetDefaultValue` of each
option has been called once, in list order, on an initially empty mapping, a
key `k` is present if and only if `k` is the `Name` of a value-bearing option
of the list whose `DefaultValue` is non-zero (non-empty); the value stored for
such an option is its `DefaultValue`; the `Name` of a Bool option of the list
is not present. -/
theorem default_seeding_invariant (opts : List AnyOption)
    (hd : (opts.map AnyOption.Name).Nodup) :
    (∀ k : GoString, seedDefaults opts Mapping.empty k ≠ none ↔
      ∃ o ∈ opts, o.Name = k ∧ o.nonZeroDefault ≠ none) ∧
    (∀ o ∈ opts, ∀ v, o.nonZeroDefault = some v →
      seedDefaults opts Mapping.empty o.Name = some v) ∧
    (∀ b : BoolOption, AnyOption.Bool b ∈ opts →
      seedDefaults opts Mapping.empty b.Name = none) := by
  have hown : ∀ o ∈ opts, seedDefaults opts Mapping.empty o.Name = o.nonZeroDefault := by
    intro o ho
    rw [seedDefaults_own opts Mapping.empty hd o ho]
    cases o.nonZeroDefault with
    | none => rfl
    | some v => rfl
  refine ⟨?_, ?_, ?_⟩
  · intro k
    constructor
    · intro hk
      by_cases hex : ∃ o ∈ opts, o.Name = k
      · obtain ⟨o, ho, hok⟩ := hex
        refine ⟨o, ho, hok, ?_⟩
        rw [← hown o ho, hok]
        exact hk
      · exfalso
        apply hk
        rw [seedDefaults_other opts k Mapping.empty (fun o ho hok => hex ⟨o, ho, hok⟩)]
        rfl
    · rintro ⟨o, ho, hok, hnz⟩
      rw [← hok, hown o ho]
      exact hnz
  · intro o ho v hv
    rw [hown o ho, hv]
  · intro b hb
    exact hown (AnyOption.Bool b) hb

/-- The list of the declarations `IntOption{Name:"port", DefaultValue:8080}`,
`BoolOption{Name:"verbose"}` and `StringOption{Name:"host"}` (no default)
seeds `port = 8080` and leaves `verbose` and `host` absent. -/
theorem default_seeding_invariant_witness :
    ([AnyOption.Int ⟨lit "port", [], 8080, [], [], []⟩,
        AnyOption.Bool ⟨lit "verbose", [], [], [], []⟩,
        AnyOption.String ⟨lit "host", [], [], [], [], []⟩].map AnyOption.Name).Nodup ∧
    seedDefaults [AnyOption.Int ⟨lit "port", [], 8080, [], [], []⟩,
        AnyOption.Bool ⟨lit "verbose", [], [], [], []⟩,
        AnyOption.String ⟨lit "host", [], [], [], [], []⟩] Mapping.empty (lit "port") =
      some (Value.int 8080) ∧
    seedDefaults [AnyOption.Int ⟨lit "port", [], 8080, [], [], []⟩,
        AnyOption.Bool ⟨lit "verbose", [], [], [], []⟩,
        AnyOption.String ⟨lit "host", [], [], [], [], []⟩] Mapping.empty (lit "verbose") =
      none :=
  ⟨by decide,
    (default_seeding_invariant [AnyOption.Int ⟨lit "port", [], 8080, [], [], []⟩,
        AnyOption.Bool ⟨lit "verbose", [], [], [], []⟩,
        AnyOption.String ⟨lit "host", [], [], [], [], []⟩] (by decide)).2.1
      (AnyOption.Int ⟨lit "port", [], 8080, [], [], []⟩) (by decide) (Value.int 8080) rfl,
    (default_seeding_invariant [AnyOption.Int ⟨lit "port", [], 8080, [], [], []⟩,
        AnyOption.Bool ⟨lit "verbose", [], [], [], []⟩,
        AnyOption.String ⟨lit "host", [], [], [], [], []⟩] (by decide)).2.2
      ⟨lit "verbose", [], [], [], []⟩ (by decide)⟩

end cli
